import Mathlib

/-!
# Verification of the bhumi relay / endpoint-state / wire-protocol core

Shallow embedding of the bhumi repository's core subsystems in Lean 4:

* `bhumi-proto/src/lib.rs` — the wire codec (frame payload encoders/decoders
  for every relay and device-layer message type);
* `bhumi-node/src/state.rs` — the endpoint state machine (invites, pending
  peers, established peers, preimage ratchet, persistence, invite tokens);
* `bhumi-relay/src/router.rs` and `bhumi-relay/src/session.rs` — the relay
  router (commit admission, response cache, pending waiters) and the per
  connection frame dispatch;
* the response-parsing fragments of `bhumi-node/src/node.rs` (`Node::send`)
  and `bhumi-device/src/lib.rs` (`Device::send_command`).

Modelling conventions:

* Machine bytes are `Nat` (with explicit `< 256` bounds where the source's
  `u8` type matters); byte strings (`Vec<u8>`, `[u8; 32]`) are `List Nat`.
* Rust `HashMap`/`HashSet` are association lists (`List (κ × α)`) with
  `lookupA`/`insertA`/`removeA` mirroring `get`/`insert`/`remove`; removal
  from a `HashSet` is modelled by `List.filter` (after removal the element
  is not contained, exactly the set semantics).
* SHA-256 is an opaque-to-the-model parameter `hash : List Nat → List Nat`
  (the claims under verification never depend on properties of the digest
  beyond it being a function); likewise Ed25519 verification in the relay
  session is a boolean oracle `sigOk`, and `serde_json` decoding of the
  `Response` type in the two clients is a boolean oracle `dec`.
* Rust's RNG (`random_bytes`) is an oracle input: the freshly generated
  preimage is passed to the state operation as an explicit argument, and
  `Instant::now()` / unix timestamps are explicit `now : Nat` arguments.
* Fallible decoding returns `Option`; a Rust `?`/`panic!`-style failure is
  `none`.
-/

namespace Bhumi

/-! ## Integer (de)serialisation helpers -/

/-- Big-endian 2-byte encoding of a `u16` (`n.to_be_bytes()`). -/
def u16be (n : Nat) : List Nat := [n / 256 % 256, n % 256]

/-- Big-endian 4-byte encoding of a `u32` (`n.to_be_bytes()`). -/
def u32be (n : Nat) : List Nat :=
  [n / 16777216 % 256, n / 65536 % 256, n / 256 % 256, n % 256]

/-- Model of `u16::from_be_bytes` on a 2-byte list. -/
def readU16 : List Nat → Nat
  | [a, b] => a * 256 + b
  | _ => 0

/-- Model of `u32::from_be_bytes` on a 4-byte list. -/
def readU32 : List Nat → Nat
  | [a, b, c, d] => a * 16777216 + b * 65536 + c * 256 + d
  | _ => 0

/-- Sequential byte reader: take exactly `n` bytes, failing like the Rust
decoders' `if data.len() < n { return Err(...) }` length guards. -/
def takeN (n : Nat) (l : List Nat) : Option (List Nat × List Nat) :=
  if l.length < n then none else some (l.take n, l.drop n)

theorem u16be_length (n : Nat) : (u16be n).length = 2 := rfl

theorem u32be_length (n : Nat) : (u32be n).length = 4 := rfl

theorem readU16_u16be (n : Nat) (h : n < 65536) : readU16 (u16be n) = n := by
  simp only [u16be, readU16]
  omega

theorem readU32_u32be (n : Nat) (h : n < 4294967296) : readU32 (u32be n) = n := by
  simp only [u32be, readU32]
  omega

theorem takeN_append (n : Nat) (l rest : List Nat) (h : l.length = n) :
    takeN n (l ++ rest) = some (l, rest) := by
  subst h
  simp [takeN, List.take_left, List.drop_left]

theorem takeN_exact (n : Nat) (l : List Nat) (h : l.length = n) :
    takeN n l = some (l, []) := by
  have := takeN_append n l [] h
  simpa using this

/-! ## Wire protocol constants (`bhumi-proto/src/lib.rs`) -/

def MSG_HELLO : Nat := 0x0001
def MSG_I_AM : Nat := 0x0002
def MSG_SEND : Nat := 0x0003
def MSG_DELIVER : Nat := 0x0004
def MSG_ACK : Nat := 0x0005
def MSG_KEEPALIVE : Nat := 0x0006
def MSG_SEND_RESULT : Nat := 0x0007
def MSG_UPDATE_COMMITS : Nat := 0x0008

def SEND_OK : Nat := 0
def SEND_ERR_NOT_CONNECTED : Nat := 1
def SEND_ERR_INVALID_PREIMAGE : Nat := 2
def SEND_ERR_TIMEOUT : Nat := 3
def SEND_ERR_DISCONNECTED : Nat := 4

def DEV_HANDSHAKE_INIT : Nat := 0x01
def DEV_HANDSHAKE_COMPLETE : Nat := 0x02
def DEV_MESSAGE : Nat := 0x10
def DEV_MESSAGE_RESPONSE : Nat := 0x11

def HANDSHAKE_ACCEPTED : Nat := 0
def HANDSHAKE_REJECTED : Nat := 1

/-! ## Relay messages -/

/-- Message `Hello` — version:u8, nonce:u32, max_payload_size:u32. -/
structure Hello where
  version : Nat
  nonce : Nat
  maxPayloadSize : Nat
deriving DecidableEq

def Hello.toBytes (h : Hello) : List Nat :=
  h.version :: (u32be h.nonce ++ u32be h.maxPayloadSize)

def Hello.fromBytes (data : List Nat) : Option Hello :=
  match data with
  | [] => none
  | v :: rest => do
    let (n4, rest) ← takeN 4 rest
    let (m4, _) ← takeN 4 rest
    some ⟨v, readU32 n4, readU32 m4⟩

/-- Record `RecentResponse` — (preimage:32, len:u32, bytes). -/
structure RecentResponse where
  preimage : List Nat
  response : List Nat
deriving DecidableEq

/-- Message `IAm` — id:32, sig:64, commit_count:u16, commits:32·N,
response_count:u16, responses. -/
structure IAm where
  id52 : List Nat
  signature : List Nat
  commits : List (List Nat)
  recentResponses : List RecentResponse
deriving DecidableEq

def IAm.toBytes (m : IAm) : List Nat :=
  m.id52 ++ m.signature ++ u16be m.commits.length ++ m.commits.flatten ++
    u16be m.recentResponses.length ++
    (m.recentResponses.map
      (fun r => r.preimage ++ u32be r.response.length ++ r.response)).flatten

/-- Read `n` fixed-size chunks of `k` bytes each (the Rust
`for i in 0..count` slicing loops over contiguous offsets). -/
def readChunks (k : Nat) : Nat → List Nat → Option (List (List Nat) × List Nat)
  | 0, l => some ([], l)
  | n + 1, l => do
    let (c, l) ← takeN k l
    let (cs, l) ← readChunks k n l
    some (c :: cs, l)

/-- Read `n` recent-response records (preimage:32, len:u32, bytes). -/
def readResponses : Nat → List Nat → Option (List RecentResponse × List Nat)
  | 0, l => some ([], l)
  | n + 1, l => do
    let (p, l) ← takeN 32 l
    let (len4, l) ← takeN 4 l
    let (resp, l) ← takeN (readU32 len4) l
    let (rs, l) ← readResponses n l
    some (⟨p, resp⟩ :: rs, l)

def IAm.fromBytes (data : List Nat) : Option IAm := do
  let (id52, data) ← takeN 32 data
  let (sig, data) ← takeN 64 data
  let (cc2, data) ← takeN 2 data
  let (commits, data) ← readChunks 32 (readU16 cc2) data
  let (rc2, data) ← takeN 2 data
  let (responses, _) ← readResponses (readU16 rc2) data
  some ⟨id52, sig, commits, responses⟩

/-- Message `Send` — to_id:32, preimage:32, len:u32, payload. -/
structure Send where
  toId52 : List Nat
  preimage : List Nat
  payload : List Nat
deriving DecidableEq

def Send.toBytes (m : Send) : List Nat :=
  m.toId52 ++ m.preimage ++ u32be m.payload.length ++ m.payload

def Send.fromBytes (data : List Nat) : Option Send := do
  let (toId, data) ← takeN 32 data
  let (preimage, data) ← takeN 32 data
  let (len4, data) ← takeN 4 data
  let (payload, _) ← takeN (readU32 len4) data
  some ⟨toId, preimage, payload⟩

/-- Message `UpdateCommits` — count:u16, commits:32·N. -/
structure UpdateCommits where
  commits : List (List Nat)
deriving DecidableEq

def UpdateCommits.toBytes (m : UpdateCommits) : List Nat :=
  u16be m.commits.length ++ m.commits.flatten

def UpdateCommits.fromBytes (data : List Nat) : Option UpdateCommits := do
  let (cc2, data) ← takeN 2 data
  let (commits, _) ← readChunks 32 (readU16 cc2) data
  some ⟨commits⟩

/-- Message `Deliver` — msg_id:u32, len:u32, payload. -/
structure Deliver where
  msgId : Nat
  payload : List Nat
deriving DecidableEq

def Deliver.toBytes (m : Deliver) : List Nat :=
  u32be m.msgId ++ u32be m.payload.length ++ m.payload

def Deliver.fromBytes (data : List Nat) : Option Deliver := do
  let (id4, data) ← takeN 4 data
  let (len4, data) ← takeN 4 data
  let (payload, _) ← takeN (readU32 len4) data
  some ⟨readU32 id4, payload⟩

/-- Message `Ack` — msg_id:u32, len:u32, payload. -/
structure Ack where
  msgId : Nat
  payload : List Nat
deriving DecidableEq

def Ack.toBytes (m : Ack) : List Nat :=
  u32be m.msgId ++ u32be m.payload.length ++ m.payload

def Ack.fromBytes (data : List Nat) : Option Ack := do
  let (id4, data) ← takeN 4 data
  let (len4, data) ← takeN 4 data
  let (payload, _) ← takeN (readU32 len4) data
  some ⟨readU32 id4, payload⟩

/-- Message `SendResult` — status:u8, len:u32, payload. -/
structure SendResult where
  status : Nat
  payload : List Nat
deriving DecidableEq

def SendResult.toBytes (m : SendResult) : List Nat :=
  m.status :: (u32be m.payload.length ++ m.payload)

def SendResult.fromBytes (data : List Nat) : Option SendResult :=
  match data with
  | [] => none
  | s :: rest => do
    let (len4, rest) ← takeN 4 rest
    let (payload, _) ← takeN (readU32 len4) rest
    some ⟨s, payload⟩

/-! ## Device-layer messages

Rust `String` fields (`relay_url`) are modelled by their UTF-8 byte lists;
`String::from_utf8` on bytes produced from a `String` always succeeds and is
the identity on the underlying bytes, so the decoders below return the byte
list unchanged. -/

/-- Message `HandshakeInit` — 0x01, sender_id:32, preimage_for_peer:32,
relay_url:(u16 len, utf8). -/
structure HandshakeInit where
  senderId52 : List Nat
  preimageForPeer : List Nat
  relayUrl : List Nat
deriving DecidableEq

def HandshakeInit.toBytes (m : HandshakeInit) : List Nat :=
  DEV_HANDSHAKE_INIT :: (m.senderId52 ++ m.preimageForPeer ++
    u16be m.relayUrl.length ++ m.relayUrl)

def HandshakeInit.fromBytes (data : List Nat) : Option HandshakeInit :=
  match data with
  | [] => none
  | tag :: rest =>
    if tag = DEV_HANDSHAKE_INIT then do
      let (sid, rest) ← takeN 32 rest
      let (pfp, rest) ← takeN 32 rest
      let (len2, rest) ← takeN 2 rest
      let (url, _) ← takeN (readU16 len2) rest
      some ⟨sid, pfp, url⟩
    else none

/-- Message `HandshakeComplete` — 0x02, status:u8, preimage_for_peer:32,
relay_url:(u16 len, utf8). -/
structure HandshakeComplete where
  status : Nat
  preimageForPeer : List Nat
  relayUrl : List Nat
deriving DecidableEq

def HandshakeComplete.toBytes (m : HandshakeComplete) : List Nat :=
  DEV_HANDSHAKE_COMPLETE :: m.status :: (m.preimageForPeer ++
    u16be m.relayUrl.length ++ m.relayUrl)

def HandshakeComplete.fromBytes (data : List Nat) : Option HandshakeComplete :=
  match data with
  | tag :: s :: rest =>
    if tag = DEV_HANDSHAKE_COMPLETE then do
      let (pfp, rest) ← takeN 32 rest
      let (len2, rest) ← takeN 2 rest
      let (url, _) ← takeN (readU16 len2) rest
      some ⟨s, pfp, url⟩
    else none
  | _ => none

/-- Message `DeviceMessage` — 0x10, content_type:u8, relay_url:(u16 len, utf8),
content:(u32 len, bytes). -/
structure DeviceMessage where
  contentType : Nat
  relayUrl : List Nat
  content : List Nat
deriving DecidableEq

def DeviceMessage.toBytes (m : DeviceMessage) : List Nat :=
  DEV_MESSAGE :: m.contentType :: (u16be m.relayUrl.length ++ m.relayUrl ++
    u32be m.content.length ++ m.content)

def DeviceMessage.fromBytes (data : List Nat) : Option DeviceMessage :=
  match data with
  | tag :: ct :: rest =>
    if tag = DEV_MESSAGE then do
      let (len2, rest) ← takeN 2 rest
      let (url, rest) ← takeN (readU16 len2) rest
      let (len4, rest) ← takeN 4 rest
      let (content, _) ← takeN (readU32 len4) rest
      some ⟨ct, url, content⟩
    else none
  | _ => none

/-- Message `DeviceMessageResponse` — 0x11, status:u8, next_preimage:32,
relay_url:(u16 len, utf8), content:(u32 len, bytes). -/
structure DeviceMessageResponse where
  status : Nat
  nextPreimage : List Nat
  relayUrl : List Nat
  content : List Nat
deriving DecidableEq

def DeviceMessageResponse.toBytes (m : DeviceMessageResponse) : List Nat :=
  DEV_MESSAGE_RESPONSE :: m.status :: (m.nextPreimage ++
    u16be m.relayUrl.length ++ m.relayUrl ++
    u32be m.content.length ++ m.content)

def DeviceMessageResponse.fromBytes (data : List Nat) :
    Option DeviceMessageResponse :=
  match data with
  | tag :: s :: rest =>
    if tag = DEV_MESSAGE_RESPONSE then do
      let (np, rest) ← takeN 32 rest
      let (len2, rest) ← takeN 2 rest
      let (url, rest) ← takeN (readU16 len2) rest
      let (len4, rest) ← takeN 4 rest
      let (content, _) ← takeN (readU32 len4) rest
      some ⟨s, np, url, content⟩
    else none
  | _ => none

/-- A relay frame: `u16 be msg_type · u32 be length · payload`. -/
structure Frame where
  msgType : Nat
  payload : List Nat
deriving DecidableEq

/-! ## Codec round-trip lemmas -/

theorem readChunks_append (k : Nat) (cs : List (List Nat)) (rest : List Nat)
    (h : ∀ c ∈ cs, c.length = k) :
    readChunks k cs.length (cs.flatten ++ rest) = some (cs, rest) := by
  induction cs generalizing rest with
  | nil => simp [readChunks]
  | cons c cs ih =>
    have hc : c.length = k := h c (List.mem_cons_self c cs)
    have hcs : ∀ x ∈ cs, x.length = k := fun x hx => h x (List.mem_cons_of_mem c hx)
    simp only [List.length_cons, List.flatten_cons, List.append_assoc, readChunks]
    rw [takeN_append k c _ hc]
    simp only [Option.bind_eq_bind, Option.some_bind]
    rw [ih rest hcs]
    rfl

theorem readResponses_append (rs : List RecentResponse) (rest : List Nat)
    (hp : ∀ r ∈ rs, r.preimage.length = 32)
    (hl : ∀ r ∈ rs, r.response.length < 4294967296) :
    readResponses rs.length
      ((rs.map (fun r => r.preimage ++ u32be r.response.length ++ r.response)).flatten
        ++ rest) = some (rs, rest) := by
  induction rs generalizing rest with
  | nil => simp [readResponses]
  | cons r rs ih =>
    have hp1 : r.preimage.length = 32 := hp r (List.mem_cons_self r rs)
    have hl1 : r.response.length < 4294967296 := hl r (List.mem_cons_self r rs)
    simp only [List.length_cons, List.map_cons, List.flatten_cons,
      List.append_assoc, readResponses]
    rw [takeN_append 32 r.preimage _ hp1]
    simp only [Option.bind_eq_bind, Option.some_bind]
    rw [takeN_append 4 (u32be r.response.length) _ (u32be_length _)]
    simp only [Option.some_bind]
    rw [readU32_u32be _ hl1, takeN_append _ r.response _ rfl]
    simp only [Option.some_bind]
    have ih' := ih rest (fun x hx => hp x (List.mem_cons_of_mem r hx))
      (fun x hx => hl x (List.mem_cons_of_mem r hx))
    simp only [List.append_assoc] at ih'
    rw [ih']
    rfl

theorem hello_roundtrip (h : Hello) (h2 : h.nonce < 4294967296)
    (h3 : h.maxPayloadSize < 4294967296) :
    Hello.fromBytes h.toBytes = some h := by
  simp only [Hello.toBytes, Hello.fromBytes]
  rw [takeN_append 4 (u32be h.nonce) _ (u32be_length _)]
  simp only [Option.bind_eq_bind, Option.some_bind]
  rw [takeN_exact 4 (u32be h.maxPayloadSize) (u32be_length _)]
  simp only [Option.some_bind]
  rw [readU32_u32be _ h2, readU32_u32be _ h3]

theorem iam_roundtrip (m : IAm)
    (hid : m.id52.length = 32) (hsig : m.signature.length = 64)
    (hcc : m.commits.length < 65536) (hc : ∀ c ∈ m.commits, c.length = 32)
    (hrc : m.recentResponses.length < 65536)
    (hrp : ∀ r ∈ m.recentResponses, r.preimage.length = 32)
    (hrl : ∀ r ∈ m.recentResponses, r.response.length < 4294967296) :
    IAm.fromBytes m.toBytes = some m := by
  simp only [IAm.toBytes, IAm.fromBytes, List.append_assoc]
  rw [takeN_append 32 m.id52 _ hid]
  simp only [Option.bind_eq_bind, Option.some_bind]
  rw [takeN_append 64 m.signature _ hsig]
  simp only [Option.some_bind]
  rw [takeN_append 2 (u16be m.commits.length) _ (u16be_length _)]
  simp only [Option.some_bind]
  rw [readU16_u16be _ hcc, readChunks_append 32 m.commits _ hc]
  simp only [Option.some_bind]
  rw [takeN_append 2 (u16be m.recentResponses.length) _ (u16be_length _)]
  simp only [Option.some_bind]
  rw [readU16_u16be _ hrc]
  have hresp := readResponses_append m.recentResponses [] hrp hrl
  simp only [List.append_nil, List.append_assoc] at hresp
  rw [hresp]
  rfl

theorem send_roundtrip (m : Send)
    (hto : m.toId52.length = 32) (hp : m.preimage.length = 32)
    (hl : m.payload.length < 4294967296) :
    Send.fromBytes m.toBytes = some m := by
  simp only [Send.toBytes, Send.fromBytes, List.append_assoc]
  rw [takeN_append 32 m.toId52 _ hto]
  simp only [Option.bind_eq_bind, Option.some_bind]
  rw [takeN_append 32 m.preimage _ hp]
  simp only [Option.some_bind]
  rw [takeN_append 4 (u32be m.payload.length) _ (u32be_length _)]
  simp only [Option.some_bind]
  rw [readU32_u32be _ hl, takeN_exact _ m.payload rfl]
  rfl

theorem updateCommits_roundtrip (m : UpdateCommits)
    (hcc : m.commits.length < 65536) (hc : ∀ c ∈ m.commits, c.length = 32) :
    UpdateCommits.fromBytes m.toBytes = some m := by
  simp only [UpdateCommits.toBytes, UpdateCommits.fromBytes]
  rw [takeN_append 2 (u16be m.commits.length) _ (u16be_length _)]
  simp only [Option.bind_eq_bind, Option.some_bind]
  rw [readU16_u16be _ hcc]
  have hch := readChunks_append 32 m.commits [] hc
  rw [List.append_nil] at hch
  rw [hch]
  rfl

theorem deliver_roundtrip (m : Deliver)
    (hid : m.msgId < 4294967296) (hl : m.payload.length < 4294967296) :
    Deliver.fromBytes m.toBytes = some m := by
  simp only [Deliver.toBytes, Deliver.fromBytes, List.append_assoc]
  rw [takeN_append 4 (u32be m.msgId) _ (u32be_length _)]
  simp only [Option.bind_eq_bind, Option.some_bind]
  rw [takeN_append 4 (u32be m.payload.length) _ (u32be_length _)]
  simp only [Option.some_bind]
  rw [readU32_u32be _ hl, takeN_exact _ m.payload rfl]
  simp only [Option.some_bind]
  rw [readU32_u32be _ hid]

theorem ack_roundtrip (m : Ack)
    (hid : m.msgId < 4294967296) (hl : m.payload.length < 4294967296) :
    Ack.fromBytes m.toBytes = some m := by
  simp only [Ack.toBytes, Ack.fromBytes, List.append_assoc]
  rw [takeN_append 4 (u32be m.msgId) _ (u32be_length _)]
  simp only [Option.bind_eq_bind, Option.some_bind]
  rw [takeN_append 4 (u32be m.payload.length) _ (u32be_length _)]
  simp only [Option.some_bind]
  rw [readU32_u32be _ hl, takeN_exact _ m.payload rfl]
  simp only [Option.some_bind]
  rw [readU32_u32be _ hid]

theorem sendResult_roundtrip (m : SendResult)
    (hl : m.payload.length < 4294967296) :
    SendResult.fromBytes m.toBytes = some m := by
  simp only [SendResult.toBytes, SendResult.fromBytes]
  rw [takeN_append 4 (u32be m.payload.length) _ (u32be_length _)]
  simp only [Option.bind_eq_bind, Option.some_bind]
  rw [readU32_u32be _ hl, takeN_exact _ m.payload rfl]
  rfl

theorem handshakeInit_roundtrip (m : HandshakeInit)
    (hs : m.senderId52.length = 32) (hp : m.preimageForPeer.length = 32)
    (hu : m.relayUrl.length < 65536) :
    HandshakeInit.fromBytes m.toBytes = some m := by
  simp only [HandshakeInit.toBytes, HandshakeInit.fromBytes, List.append_assoc,
    if_pos rfl]
  rw [takeN_append 32 m.senderId52 _ hs]
  simp only [Option.bind_eq_bind, Option.some_bind]
  rw [takeN_append 32 m.preimageForPeer _ hp]
  simp only [Option.some_bind]
  rw [takeN_append 2 (u16be m.relayUrl.length) _ (u16be_length _)]
  simp only [Option.some_bind]
  rw [readU16_u16be _ hu, takeN_exact _ m.relayUrl rfl]
  simp

theorem handshakeComplete_roundtrip (m : HandshakeComplete)
    (hp : m.preimageForPeer.length = 32) (hu : m.relayUrl.length < 65536) :
    HandshakeComplete.fromBytes m.toBytes = some m := by
  simp only [HandshakeComplete.toBytes, HandshakeComplete.fromBytes,
    List.append_assoc, if_pos rfl]
  rw [takeN_append 32 m.preimageForPeer _ hp]
  simp only [Option.bind_eq_bind, Option.some_bind]
  rw [takeN_append 2 (u16be m.relayUrl.length) _ (u16be_length _)]
  simp only [Option.some_bind]
  rw [readU16_u16be _ hu, takeN_exact _ m.relayUrl rfl]
  simp

theorem deviceMessage_roundtrip (m : DeviceMessage)
    (hu : m.relayUrl.length < 65536) (hc : m.content.length < 4294967296) :
    DeviceMessage.fromBytes m.toBytes = some m := by
  simp only [DeviceMessage.toBytes, DeviceMessage.fromBytes, List.append_assoc,
    if_pos rfl]
  rw [takeN_append 2 (u16be m.relayUrl.length) _ (u16be_length _)]
  simp only [Option.bind_eq_bind, Option.some_bind]
  rw [readU16_u16be _ hu, takeN_append _ m.relayUrl _ rfl]
  simp only [Option.some_bind]
  rw [takeN_append 4 (u32be m.content.length) _ (u32be_length _)]
  simp only [Option.some_bind]
  rw [readU32_u32be _ hc, takeN_exact _ m.content rfl]
  simp

theorem deviceMessageResponse_roundtrip (m : DeviceMessageResponse)
    (hp : m.nextPreimage.length = 32) (hu : m.relayUrl.length < 65536)
    (hc : m.content.length < 4294967296) :
    DeviceMessageResponse.fromBytes m.toBytes = some m := by
  simp only [DeviceMessageResponse.toBytes, DeviceMessageResponse.fromBytes,
    List.append_assoc, if_pos rfl]
  rw [takeN_append 32 m.nextPreimage _ hp]
  simp only [Option.bind_eq_bind, Option.some_bind]
  rw [takeN_append 2 (u16be m.relayUrl.length) _ (u16be_length _)]
  simp only [Option.some_bind]
  rw [readU16_u16be _ hu, takeN_append _ m.relayUrl _ rfl]
  simp only [Option.some_bind]
  rw [takeN_append 4 (u32be m.content.length) _ (u32be_length _)]
  simp only [Option.some_bind]
  rw [readU32_u32be _ hc, takeN_exact _ m.content rfl]
  simp

/-! ## base64url (no padding) and invite tokens
(`data_encoding::BASE64URL_NOPAD`, `bhumi-node/src/state.rs`) -/

/-- Sextet value to base64url alphabet character (ASCII code):
`A-Z a-z 0-9 - _`. -/
def b64Char (n : Nat) : Nat :=
  if n < 26 then 65 + n
  else if n < 52 then 97 + (n - 26)
  else if n < 62 then 48 + (n - 52)
  else if n = 62 then 45
  else 95

/-- Inverse of `b64Char`: character to sextet value, `none` for characters
outside the base64url alphabet. -/
def b64Val (c : Nat) : Option Nat :=
  if 65 ≤ c ∧ c ≤ 90 then some (c - 65)
  else if 97 ≤ c ∧ c ≤ 122 then some (c - 97 + 26)
  else if 48 ≤ c ∧ c ≤ 57 then some (c - 48 + 52)
  else if c = 45 then some 62
  else if c = 95 then some 63
  else none

/-- base64url-encode a byte list (no padding): groups of 3 bytes become 4
characters; a trailing group of 1 or 2 bytes becomes 2 or 3 characters. -/
def b64Encode : List Nat → List Nat
  | [] => []
  | [a] => [b64Char (a / 4), b64Char (a % 4 * 16)]
  | [a, b] => [b64Char (a / 4), b64Char (a % 4 * 16 + b / 16), b64Char (b % 16 * 4)]
  | a :: b :: c :: rest =>
    b64Char (a / 4) :: b64Char (a % 4 * 16 + b / 16) ::
      b64Char (b % 16 * 4 + c / 64) :: b64Char (c % 64) :: b64Encode rest

/-- base64url-decode (no padding, canonical: trailing bits must be zero,
as `data_encoding` checks); `none` on a bad character, on a left-over
single character, or on non-zero trailing bits. -/
def b64Decode : List Nat → Option (List Nat)
  | [] => some []
  | [_] => none
  | [c1, c2] => do
    let v1 ← b64Val c1
    let v2 ← b64Val c2
    if v2 % 16 = 0 then some [v1 * 4 + v2 / 16] else none
  | [c1, c2, c3] => do
    let v1 ← b64Val c1
    let v2 ← b64Val c2
    let v3 ← b64Val c3
    if v3 % 4 = 0 then some [v1 * 4 + v2 / 16, v2 % 16 * 16 + v3 / 4] else none
  | c1 :: c2 :: c3 :: c4 :: rest => do
    let v1 ← b64Val c1
    let v2 ← b64Val c2
    let v3 ← b64Val c3
    let v4 ← b64Val c4
    let tail ← b64Decode rest
    some ((v1 * 4 + v2 / 16) :: (v2 % 16 * 16 + v3 / 4) :: (v3 % 4 * 64 + v4) :: tail)

theorem b64Val_b64Char : ∀ n < 64, b64Val (b64Char n) = some n := by
  decide

theorem b64Decode_b64Encode (l : List Nat) (h : ∀ b ∈ l, b < 256) :
    b64Decode (b64Encode l) = some l := by
  match l with
  | [] => rfl
  | [a] =>
    have ha : a < 256 := h a (by simp)
    simp only [b64Encode, b64Decode]
    rw [b64Val_b64Char _ (by omega), b64Val_b64Char _ (by omega)]
    simp only [Option.bind_eq_bind, Option.some_bind]
    rw [if_pos (by omega)]
    have : a / 4 * 4 + a % 4 * 16 / 16 = a := by omega
    rw [this]
  | [a, b] =>
    have ha : a < 256 := h a (by simp)
    have hb : b < 256 := h b (by simp)
    simp only [b64Encode, b64Decode]
    rw [b64Val_b64Char _ (by omega), b64Val_b64Char _ (by omega),
      b64Val_b64Char _ (by omega)]
    simp only [Option.bind_eq_bind, Option.some_bind]
    rw [if_pos (by omega)]
    have h1 : a / 4 * 4 + (a % 4 * 16 + b / 16) / 16 = a := by omega
    have h2 : (a % 4 * 16 + b / 16) % 16 * 16 + b % 16 * 4 / 4 = b := by omega
    rw [h1, h2]
  | a :: b :: c :: rest =>
    have ha : a < 256 := h a (by simp)
    have hb : b < 256 := h b (by simp)
    have hc : c < 256 := h c (by simp)
    have hrest : ∀ x ∈ rest, x < 256 := by
      intro x hx
      exact h x (by simp [hx])
    have ih := b64Decode_b64Encode rest hrest
    match hrev : b64Encode rest with
    | [] =>
      simp only [b64Encode, hrev, b64Decode]
      rw [b64Val_b64Char _ (by omega), b64Val_b64Char _ (by omega),
        b64Val_b64Char _ (by omega), b64Val_b64Char _ (by omega)]
      rw [hrev] at ih
      simp only [b64Decode] at ih
      have hrest0 : rest = [] := (Option.some.inj ih).symm
      subst hrest0
      have h1 : a / 4 * 4 + (a % 4 * 16 + b / 16) / 16 = a := by omega
      have h2 : (a % 4 * 16 + b / 16) % 16 * 16 + (b % 16 * 4 + c / 64) / 4 = b := by
        omega
      have h3 : (b % 16 * 4 + c / 64) % 4 * 64 + c % 64 = c := by omega
      simp only [Option.bind_eq_bind, Option.some_bind]
      rw [h1, h2, h3]
    | e1 :: erest =>
      simp only [b64Encode, hrev, b64Decode]
      rw [b64Val_b64Char _ (by omega), b64Val_b64Char _ (by omega),
        b64Val_b64Char _ (by omega), b64Val_b64Char _ (by omega)]
      rw [hrev] at ih
      simp only [Option.bind_eq_bind, Option.some_bind]
      rw [ih]
      simp only [Option.some_bind]
      have h1 : a / 4 * 4 + (a % 4 * 16 + b / 16) / 16 = a := by omega
      have h2 : (a % 4 * 16 + b / 16) % 16 * 16 + (b % 16 * 4 + c / 64) / 4 = b := by
        omega
      have h3 : (b % 16 * 4 + c / 64) % 4 * 64 + c % 64 = c := by omega
      rw [h1, h2, h3]

/-- Model of `create_invite_token`: base64url-encode `id52 ‖ preimage` (64 bytes). -/
def create_invite_token (id52 preimage : List Nat) : List Nat :=
  b64Encode (id52 ++ preimage)

/-- Model of `parse_invite_token`: base64url-decode, require exactly 64 bytes, split
into `(id52, preimage)`. -/
def parse_invite_token (token : List Nat) : Option (List Nat × List Nat) :=
  (b64Decode token).bind fun data =>
    if data.length = 64 then some (data.take 32, data.drop 32) else none

theorem invite_token_roundtrip (id52 preimage : List Nat)
    (h1 : id52.length = 32) (h2 : preimage.length = 32)
    (hb1 : ∀ b ∈ id52, b < 256) (hb2 : ∀ b ∈ preimage, b < 256) :
    parse_invite_token (create_invite_token id52 preimage) =
      some (id52, preimage) := by
  unfold create_invite_token parse_invite_token
  have hall : ∀ b ∈ id52 ++ preimage, b < 256 := by
    intro b hb
    rcases List.mem_append.mp hb with h | h
    · exact hb1 b h
    · exact hb2 b h
  rw [b64Decode_b64Encode _ hall]
  simp only [Option.some_bind]
  have hlen : (id52 ++ preimage).length = 64 := by
    simp [h1, h2]
  rw [if_pos hlen]
  have ht : (id52 ++ preimage).take 32 = id52 := by
    rw [← h1, List.take_left]
  have hd : (id52 ++ preimage).drop 32 = preimage := by
    rw [← h1, List.drop_left]
  rw [ht, hd]

/-! ## Lowercase hex (`data_encoding::HEXLOWER`, `bhumi-node/src/state.rs`) -/

/-- Nibble value to lowercase hex character code (`0`-`9`, `a`-`f`). -/
def hexDigit (n : Nat) : Nat := if n < 10 then 48 + n else 87 + n

/-- Hex character code to nibble value; `none` unless the character is a
digit or a lowercase `a`-`f` (HEXLOWER rejects uppercase). -/
def hexVal (c : Nat) : Option Nat :=
  if 48 ≤ c ∧ c ≤ 57 then some (c - 48)
  else if 97 ≤ c ∧ c ≤ 102 then some (c - 87)
  else none

/-- Model of `bytes_to_hex` / `HEXLOWER.encode`: two characters per byte. -/
def bytes_to_hex (l : List Nat) : List Nat :=
  (l.map (fun b => [hexDigit (b / 16), hexDigit (b % 16)])).flatten

/-- Model of `HEXLOWER.decode`: pairs of hex characters to bytes; `none` on odd
length or on a non-hex character. -/
def hexDecode : List Nat → Option (List Nat)
  | [] => some []
  | [_] => none
  | c1 :: c2 :: rest => do
    let hi ← hexVal c1
    let lo ← hexVal c2
    let tail ← hexDecode rest
    some ((hi * 16 + lo) :: tail)

/-- Model of `hex_to_bytes`: decode and require exactly 32 bytes
(`bytes.try_into().ok()`). -/
def hex_to_bytes (l : List Nat) : Option (List Nat) :=
  (hexDecode l).bind fun bs => if bs.length = 32 then some bs else none

theorem hexVal_hexDigit : ∀ n < 16, hexVal (hexDigit n) = some n := by
  decide

theorem hexDecode_bytes_to_hex (l : List Nat) (h : ∀ b ∈ l, b < 256) :
    hexDecode (bytes_to_hex l) = some l := by
  induction l with
  | nil => rfl
  | cons b rest ih =>
    have hb : b < 256 := h b (List.mem_cons_self b rest)
    have hrest : ∀ x ∈ rest, x < 256 := fun x hx => h x (List.mem_cons_of_mem b hx)
    simp only [bytes_to_hex, List.map_cons, List.flatten_cons, List.cons_append,
      List.nil_append, hexDecode]
    rw [hexVal_hexDigit _ (by omega), hexVal_hexDigit _ (by omega)]
    simp only [Option.bind_eq_bind, Option.some_bind]
    have ih' := ih hrest
    simp only [bytes_to_hex] at ih'
    rw [show ([] : List Nat).append
        (List.map (fun b => [hexDigit (b / 16), hexDigit (b % 16)]) rest).flatten =
        (List.map (fun b => [hexDigit (b / 16), hexDigit (b % 16)]) rest).flatten
      from rfl]
    rw [ih']
    simp only [Option.some_bind]
    have : b / 16 * 16 + b % 16 = b := by omega
    rw [this]

theorem hex_to_bytes_bytes_to_hex (l : List Nat) (h32 : l.length = 32)
    (h : ∀ b ∈ l, b < 256) : hex_to_bytes (bytes_to_hex l) = some l := by
  unfold hex_to_bytes
  rw [hexDecode_bytes_to_hex l h]
  simp [h32]

/-- A successful `hexDecode` consumes an even number of valid hex
characters, two per output byte. -/
theorem hexDecode_length (s bs : List Nat) (h : hexDecode s = some bs) :
    s.length = 2 * bs.length ∧ ∀ c ∈ s, (hexVal c).isSome := by
  induction s using hexDecode.induct generalizing bs with
  | case1 =>
    simp only [hexDecode, Option.some.injEq] at h
    subst h
    simp
  | case2 c =>
    simp [hexDecode] at h
  | case3 c1 c2 rest ih =>
    simp only [hexDecode, Option.bind_eq_bind, bind, Option.bind] at h
    match hv1 : hexVal c1 with
    | none => rw [hv1] at h; simp at h
    | some hi =>
      rw [hv1] at h
      match hv2 : hexVal c2 with
      | none => rw [hv2] at h; simp at h
      | some lo =>
        rw [hv2] at h
        match hd : hexDecode rest with
        | none => rw [hd] at h; simp at h
        | some tail =>
          rw [hd] at h
          simp only [Option.some.injEq] at h
          subst h
          obtain ⟨hl, hc⟩ := ih tail hd
          constructor
          · simp [hl]
            omega
          · intro c hc'
            simp only [List.mem_cons] at hc'
            rcases hc' with h1 | h1 | h1
            · subst h1; simp [hv1]
            · subst h1; simp [hv2]
            · exact hc c h1

/-- Conversely, an even-length string of valid hex characters decodes. -/
theorem hexDecode_isSome (s : List Nat) (he : s.length % 2 = 0)
    (hc : ∀ c ∈ s, (hexVal c).isSome) : (hexDecode s).isSome := by
  induction s using hexDecode.induct with
  | case1 => simp [hexDecode]
  | case2 c => simp at he
  | case3 c1 c2 rest ih =>
    have h1 : (hexVal c1).isSome := hc c1 (by simp)
    have h2 : (hexVal c2).isSome := hc c2 (by simp)
    have hrest : ∀ c ∈ rest, (hexVal c).isSome := by
      intro c hmem
      exact hc c (by simp [hmem])
    have he' : rest.length % 2 = 0 := by
      simp only [List.length_cons] at he
      omega
    obtain ⟨v1, hv1⟩ := Option.isSome_iff_exists.mp h1
    obtain ⟨v2, hv2⟩ := Option.isSome_iff_exists.mp h2
    obtain ⟨tail, htail⟩ := Option.isSome_iff_exists.mp (ih he' hrest)
    simp [hexDecode, hv1, hv2, htail]

/-- Spec phrase "64 lowercase-hex characters": the spec-side description of a
well-formed serialized key. -/
def goodHexKey (s : List Nat) : Prop :=
  s.length = 64 ∧ ∀ c ∈ s, (48 ≤ c ∧ c ≤ 57) ∨ (97 ≤ c ∧ c ≤ 102)

instance (s : List Nat) : Decidable (goodHexKey s) := by
  unfold goodHexKey
  infer_instance

theorem hexVal_isSome_iff (c : Nat) :
    (hexVal c).isSome ↔ (48 ≤ c ∧ c ≤ 57) ∨ (97 ≤ c ∧ c ≤ 102) := by
  unfold hexVal
  split
  · simp
    omega
  · split
    · simp
      omega
    · simp
      omega

/-- Lemma: `hex_to_bytes` succeeds exactly on keys that are 64 lowercase-hex
characters. -/
theorem hex_to_bytes_isSome_iff (s : List Nat) :
    (hex_to_bytes s).isSome ↔ goodHexKey s := by
  constructor
  · intro h
    unfold hex_to_bytes at h
    match hd : hexDecode s with
    | none => rw [hd] at h; simp at h
    | some bs =>
      rw [hd] at h
      simp only [Option.some_bind] at h
      have hlen : bs.length = 32 := by
        by_contra hne
        rw [if_neg hne] at h
        simp at h
      obtain ⟨hl, hc⟩ := hexDecode_length s bs hd
      refine ⟨by omega, ?_⟩
      intro c hmem
      exact (hexVal_isSome_iff c).mp (hc c hmem)
  · rintro ⟨hl, hc⟩
    have hc' : ∀ c ∈ s, (hexVal c).isSome := by
      intro c hmem
      exact (hexVal_isSome_iff c).mpr (hc c hmem)
    have he : s.length % 2 = 0 := by omega
    obtain ⟨bs, hbs⟩ := Option.isSome_iff_exists.mp (hexDecode_isSome s he hc')
    have hblen := (hexDecode_length s bs hbs).1
    unfold hex_to_bytes
    rw [hbs]
    simp only [Option.some_bind]
    rw [if_pos (by omega)]
    simp

/-! ## Association lists (model of `HashMap`) -/

/-- Model of `HashMap::get`. -/
def lookupA {κ α : Type} [DecidableEq κ] (k : κ) : List (κ × α) → Option α
  | [] => none
  | (k2, v) :: rest => if k = k2 then some v else lookupA k rest

/-- Model of `HashMap::insert` (replace an existing binding, else append). -/
def insertA {κ α : Type} [DecidableEq κ] (k : κ) (v : α) :
    List (κ × α) → List (κ × α)
  | [] => [(k, v)]
  | (k2, v2) :: rest =>
    if k = k2 then (k, v) :: rest else (k2, v2) :: insertA k v rest

/-- Model of `HashMap::remove`, discarding the removed value. -/
def removeA {κ α : Type} [DecidableEq κ] (k : κ) :
    List (κ × α) → List (κ × α)
  | [] => []
  | (k2, v2) :: rest =>
    if k = k2 then rest else (k2, v2) :: removeA k rest

/-- Model of `HashMap::remove` returning the removed value and the remaining map. -/
def removeLookup {κ α : Type} [DecidableEq κ] (k : κ) :
    List (κ × α) → Option (α × List (κ × α))
  | [] => none
  | (k2, v2) :: rest =>
    if k = k2 then some (v2, rest)
    else (removeLookup k rest).map fun p => (p.1, (k2, v2) :: p.2)

theorem lookupA_insertA_self {κ α : Type} [DecidableEq κ] (k : κ) (v : α)
    (l : List (κ × α)) : lookupA k (insertA k v l) = some v := by
  induction l with
  | nil => simp [insertA, lookupA]
  | cons p rest ih =>
    obtain ⟨k2, v2⟩ := p
    by_cases h : k = k2
    · simp [insertA, lookupA, h]
    · simp [insertA, lookupA, h, ih]

theorem lookupA_insertA_ne {κ α : Type} [DecidableEq κ] (k k2 : κ) (v : α)
    (l : List (κ × α)) (h : k2 ≠ k) :
    lookupA k2 (insertA k v l) = lookupA k2 l := by
  induction l with
  | nil => simp [insertA, lookupA, h]
  | cons p rest ih =>
    obtain ⟨k3, v3⟩ := p
    by_cases h2 : k = k3
    · subst h2
      simp [insertA, lookupA, h]
    · by_cases h3 : k2 = k3
      · simp [insertA, lookupA, h2, h3]
      · simp [insertA, lookupA, h2, h3, ih]

theorem removeLookup_insertA_self {κ α : Type} [DecidableEq κ] (k : κ) (v : α)
    (l : List (κ × α)) :
    ∃ rest, removeLookup k (insertA k v l) = some (v, rest) := by
  induction l with
  | nil => exact ⟨[], by simp [insertA, removeLookup]⟩
  | cons p rest ih =>
    obtain ⟨k2, v2⟩ := p
    by_cases h : k = k2
    · exact ⟨rest, by simp [insertA, removeLookup, h]⟩
    · obtain ⟨r, hr⟩ := ih
      exact ⟨(k2, v2) :: r, by simp [insertA, removeLookup, h, hr]⟩

theorem removeLookup_eq_none {κ α : Type} [DecidableEq κ] (k : κ)
    (l : List (κ × α)) (h : lookupA k l = none) : removeLookup k l = none := by
  induction l with
  | nil => rfl
  | cons p rest ih =>
    obtain ⟨k2, v2⟩ := p
    by_cases hk : k = k2
    · simp [lookupA, hk] at h
    · simp only [lookupA, if_neg hk] at h
      simp [removeLookup, hk, ih h]

theorem removeLookup_some {κ α : Type} [DecidableEq κ] (k : κ)
    (l : List (κ × α)) (v : α) (rest : List (κ × α))
    (h : removeLookup k l = some (v, rest)) :
    lookupA k l = some v ∧ rest = removeA k l := by
  induction l generalizing v rest with
  | nil => simp [removeLookup] at h
  | cons p tail ih =>
    obtain ⟨k2, v2⟩ := p
    by_cases hk : k = k2
    · simp only [removeLookup, if_pos hk, Option.some.injEq, Prod.mk.injEq] at h
      obtain ⟨h1, h2⟩ := h
      subst h1
      subst h2
      simp [lookupA, removeA, hk]
    · simp only [removeLookup, if_neg hk, Option.map_eq_some'] at h
      obtain ⟨⟨v3, r3⟩, h3, h4⟩ := h
      obtain ⟨hl, hr⟩ := ih v3 r3 h3
      simp only [Prod.mk.injEq] at h4
      obtain ⟨h5, h6⟩ := h4
      subst h5
      constructor
      · simp [lookupA, hk, hl]
      · rw [← h6, hr]
        simp [removeA, hk]

theorem lookupA_eq_none_of_not_mem {κ α : Type} [DecidableEq κ] (k : κ)
    (l : List (κ × α)) (h : k ∉ l.map Prod.fst) : lookupA k l = none := by
  induction l with
  | nil => rfl
  | cons p rest ih =>
    obtain ⟨k2, v2⟩ := p
    simp only [List.map_cons, List.mem_cons, not_or] at h
    simp [lookupA, h.1, ih h.2]

theorem lookupA_removeA_self {κ α : Type} [DecidableEq κ] (k : κ)
    (l : List (κ × α)) (hnd : (l.map Prod.fst).Nodup) :
    lookupA k (removeA k l) = none := by
  induction l with
  | nil => rfl
  | cons p rest ih =>
    obtain ⟨k2, v2⟩ := p
    simp only [List.map_cons, List.nodup_cons] at hnd
    obtain ⟨hnotin, hnd2⟩ := hnd
    by_cases hk : k = k2
    · subst hk
      simp only [removeA, if_pos rfl]
      exact lookupA_eq_none_of_not_mem k rest hnotin
    · simp only [removeA, if_neg hk, lookupA, if_neg hk]
      exact ih hnd2

theorem lookupA_removeA_ne {κ α : Type} [DecidableEq κ] (k k2 : κ)
    (l : List (κ × α)) (h : k2 ≠ k) :
    lookupA k2 (removeA k l) = lookupA k2 l := by
  induction l with
  | nil => rfl
  | cons p rest ih =>
    obtain ⟨k3, v3⟩ := p
    by_cases hk : k = k3
    · subst hk
      simp [removeA, lookupA, if_neg h]
    · by_cases h3 : k2 = k3
      · simp [removeA, lookupA, hk, h3]
      · simp [removeA, lookupA, hk, h3, ih]

/-! ## Endpoint state (`bhumi-node/src/state.rs`) -/

/-- Role enum `PeerRole` — Owner / Writer / Reader. -/
inductive PeerRole
  | owner
  | writer
  | reader
deriving DecidableEq

/-- Record `InviteRecord`. -/
structure InviteRecord where
  aliasName : String
  preimage : List Nat
  role : PeerRole
  createdAt : Nat
deriving DecidableEq

/-- Record `PendingPeerRecord`. -/
structure PendingPeerRecord where
  aliasName : String
  theirId52 : List Nat
  theirPreimage : List Nat
  myPreimage : List Nat
  relayUrl : Option String
  createdAt : Nat
deriving DecidableEq

/-- Record `PeerRecord`. -/
structure PeerRecord where
  aliasName : String
  role : PeerRole
  lastKnownRelay : Option String
  lastContacted : Nat
  issuedPreimages : List (List Nat)
  theirPreimage : Option (List Nat)
deriving DecidableEq

/-- Record `DeviceState` — the in-memory form, keyed by raw 32-byte strings. -/
structure DeviceState where
  invites : List (List Nat × InviteRecord)
  pendingPeers : List (List Nat × PendingPeerRecord)
  peers : List (List Nat × PeerRecord)
deriving DecidableEq

/-- Result enum `PreimageLookup`. -/
inductive PreimageLookup
  | invite (r : InviteRecord)
  | peer (id52 : List Nat) (r : PeerRecord)
deriving DecidableEq

/-- Model of `DeviceState::lookup_preimage`: scan invites first, then the peers'
issued-preimage lists. -/
def DeviceState.lookup_preimage (st : DeviceState) (preimage : List Nat) :
    Option PreimageLookup :=
  match lookupA preimage st.invites with
  | some inv => some (.invite inv)
  | none =>
    (st.peers.find? (fun p => decide (preimage ∈ p.2.issuedPreimages))).map
      fun p => .peer p.1 p.2

/-- Model of `DeviceState::complete_handshake_as_inviter`. The freshly generated
preimage (`random_bytes()`) and the current timestamp are oracle inputs
`newPreimage`, `now`; the digest is the `hash` parameter. Returns the
`(next_preimage, next_commit)` pair together with the post state
(`(none, st)` models the early `?` return, which leaves `self`
untouched because `HashMap::remove` of an absent key is a no-op). -/
def DeviceState.complete_handshake_as_inviter
    (hash : List Nat → List Nat) (st : DeviceState) (preimage : List Nat)
    (peerId52 peerPreimage : List Nat) (peerRelay : Option String)
    (newPreimage : List Nat) (now : Nat) :
    Option (List Nat × List Nat) × DeviceState :=
  match removeLookup preimage st.invites with
  | none => (none, st)
  | some (invite, invites2) =>
    let newCommit := hash newPreimage
    let peer : PeerRecord :=
      { aliasName := invite.aliasName
        role := invite.role
        lastKnownRelay := peerRelay
        lastContacted := now
        issuedPreimages := [newPreimage]
        theirPreimage := some peerPreimage }
    (some (newPreimage, newCommit),
      { st with invites := invites2, peers := insertA peerId52 peer st.peers })

/-- Model of `DeviceState::consume_and_renew_preimage`: remove `old_preimage` from
the peer's issued list (`Vec::retain`), push a fresh one, touch
`last_contacted`. -/
def DeviceState.consume_and_renew_preimage
    (hash : List Nat → List Nat) (st : DeviceState)
    (peerId52 oldPreimage : List Nat) (newPreimage : List Nat) (now : Nat) :
    Option (List Nat × List Nat) × DeviceState :=
  match lookupA peerId52 st.peers with
  | none => (none, st)
  | some peer =>
    let newCommit := hash newPreimage
    let peer2 : PeerRecord :=
      { peer with
          issuedPreimages :=
            (peer.issuedPreimages.filter (fun p => p ≠ oldPreimage)) ++
              [newPreimage]
          lastContacted := now }
    (some (newPreimage, newCommit),
      { st with peers := insertA peerId52 peer2 st.peers })

/-! ## Persistence (`DeviceState::save` / `DeviceState::load`)

The JSON document written by `save` is modelled by its content: maps keyed
by hex strings whose 32-byte fields are hex strings (exactly what the
`hex_bytes`/`hex_bytes_opt`/`hex_bytes_vec` serde modules put in the file).
`serde_json` round-trips this document itself faithfully; the interesting
layers — hex-keyed collections and hex-encoded fields — are explicit below.
Value-field decoding failures abort the whole parse (the serde custom
deserializers error, and `load` does `.expect(...)`), while keys that fail
`hex_to_bytes` are silently dropped by the `filter_map` in `load`. -/

/-- Serialized `InviteRecord` (preimage as hex). -/
structure SerInviteRecord where
  aliasName : String
  preimage : List Nat
  role : PeerRole
  createdAt : Nat
deriving DecidableEq

/-- Serialized `PendingPeerRecord`. -/
structure SerPendingPeerRecord where
  aliasName : String
  theirId52 : List Nat
  theirPreimage : List Nat
  myPreimage : List Nat
  relayUrl : Option String
  createdAt : Nat
deriving DecidableEq

/-- Serialized `PeerRecord`. -/
structure SerPeerRecord where
  aliasName : String
  role : PeerRole
  lastKnownRelay : Option String
  lastContacted : Nat
  issuedPreimages : List (List Nat)
  theirPreimage : Option (List Nat)
deriving DecidableEq

/-- Serialized `SerializableState` (all keys hex strings). -/
structure SerializableState where
  invites : List (List Nat × SerInviteRecord)
  pendingPeers : List (List Nat × SerPendingPeerRecord)
  peers : List (List Nat × SerPeerRecord)
deriving DecidableEq

/-- serde serialization of one invite record (`hex_bytes::serialize`). -/
def serInvite (r : InviteRecord) : SerInviteRecord :=
  ⟨r.aliasName, bytes_to_hex r.preimage, r.role, r.createdAt⟩

/-- serde deserialization of one invite record (`hex_bytes::deserialize`:
decode hex, then require 32 bytes). -/
def deserInvite (r : SerInviteRecord) : Option InviteRecord :=
  (hex_to_bytes r.preimage).map fun p => ⟨r.aliasName, p, r.role, r.createdAt⟩

def serPending (r : PendingPeerRecord) : SerPendingPeerRecord :=
  ⟨r.aliasName, bytes_to_hex r.theirId52, bytes_to_hex r.theirPreimage,
    bytes_to_hex r.myPreimage, r.relayUrl, r.createdAt⟩

def deserPending (r : SerPendingPeerRecord) : Option PendingPeerRecord := do
  let tid ← hex_to_bytes r.theirId52
  let tp ← hex_to_bytes r.theirPreimage
  let mp ← hex_to_bytes r.myPreimage
  some ⟨r.aliasName, tid, tp, mp, r.relayUrl, r.createdAt⟩

def serPeer (r : PeerRecord) : SerPeerRecord :=
  ⟨r.aliasName, r.role, r.lastKnownRelay, r.lastContacted,
    r.issuedPreimages.map bytes_to_hex, r.theirPreimage.map bytes_to_hex⟩

def deserPeer (r : SerPeerRecord) : Option PeerRecord := do
  let issued ← r.issuedPreimages.mapM hex_to_bytes
  let tp ← match r.theirPreimage with
    | none => some none
    | some s => (hex_to_bytes s).map some
  some ⟨r.aliasName, r.role, r.lastKnownRelay, r.lastContacted, issued, tp⟩

/-- Model of `DeviceState::save`: every key rendered via `bytes_to_hex`, every
record serialized. -/
def DeviceState.save (st : DeviceState) : SerializableState :=
  ⟨st.invites.map (fun kv => (bytes_to_hex kv.1, serInvite kv.2)),
    st.pendingPeers.map (fun kv => (bytes_to_hex kv.1, serPending kv.2)),
    st.peers.map (fun kv => (bytes_to_hex kv.1, serPeer kv.2))⟩

/-- Model of `DeviceState::load` on an existing file: parse all values (any value
failure fails the whole load), then `filter_map` each collection through
`hex_to_bytes` on the key, silently dropping entries with bad keys. -/
def DeviceState.load (s : SerializableState) : Option DeviceState := do
  let invites ← s.invites.mapM
    (fun kv => (deserInvite kv.2).map fun r => (kv.1, r))
  let pendings ← s.pendingPeers.mapM
    (fun kv => (deserPending kv.2).map fun r => (kv.1, r))
  let peers ← s.peers.mapM
    (fun kv => (deserPeer kv.2).map fun r => (kv.1, r))
  some ⟨invites.filterMap (fun kv => (hex_to_bytes kv.1).map fun k => (k, kv.2)),
    pendings.filterMap (fun kv => (hex_to_bytes kv.1).map fun k => (k, kv.2)),
    peers.filterMap (fun kv => (hex_to_bytes kv.1).map fun k => (k, kv.2))⟩

/-- Well-formed 32-byte string: what a `[u8; 32]` always satisfies. -/
def WF32 (l : List Nat) : Prop := l.length = 32 ∧ ∀ b ∈ l, b < 256

instance (l : List Nat) : Decidable (WF32 l) := by
  unfold WF32
  infer_instance

/-- Well-formedness of a device state: every `[u8; 32]`-typed component is
a 32-byte string of bytes. -/
def DeviceState.WF (st : DeviceState) : Prop :=
  (∀ kv ∈ st.invites, WF32 kv.1 ∧ WF32 kv.2.preimage) ∧
  (∀ kv ∈ st.pendingPeers, WF32 kv.1 ∧ WF32 kv.2.theirId52 ∧
    WF32 kv.2.theirPreimage ∧ WF32 kv.2.myPreimage) ∧
  (∀ kv ∈ st.peers, WF32 kv.1 ∧ (∀ p ∈ kv.2.issuedPreimages, WF32 p) ∧
    (∀ p ∈ kv.2.theirPreimage.toList, WF32 p))

instance (st : DeviceState) : Decidable st.WF := by
  unfold DeviceState.WF
  infer_instance

theorem hex_to_bytes_WF32 (l : List Nat) (h : WF32 l) :
    hex_to_bytes (bytes_to_hex l) = some l :=
  hex_to_bytes_bytes_to_hex l h.1 h.2

theorem deserInvite_serInvite (r : InviteRecord) (h : WF32 r.preimage) :
    deserInvite (serInvite r) = some r := by
  unfold deserInvite serInvite
  simp only [hex_to_bytes_WF32 _ h, Option.map_some']

theorem deserPending_serPending (r : PendingPeerRecord)
    (h1 : WF32 r.theirId52) (h2 : WF32 r.theirPreimage) (h3 : WF32 r.myPreimage) :
    deserPending (serPending r) = some r := by
  unfold deserPending serPending
  simp only [hex_to_bytes_WF32 _ h1, hex_to_bytes_WF32 _ h2,
    hex_to_bytes_WF32 _ h3, Option.bind_eq_bind, Option.some_bind]

theorem mapM_hex_roundtrip (l : List (List Nat)) (h : ∀ p ∈ l, WF32 p) :
    (l.map bytes_to_hex).mapM hex_to_bytes = some l := by
  induction l with
  | nil => rfl
  | cons p rest ih =>
    have hp : WF32 p := h p (List.mem_cons_self p rest)
    have hrest : ∀ q ∈ rest, WF32 q := fun q hq => h q (List.mem_cons_of_mem p hq)
    simp only [List.map_cons, List.mapM_cons, hex_to_bytes_WF32 _ hp,
      ih hrest, Option.bind_eq_bind, Option.some_bind, Option.pure_def]

theorem deserPeer_serPeer (r : PeerRecord)
    (h1 : ∀ p ∈ r.issuedPreimages, WF32 p)
    (h2 : ∀ p ∈ r.theirPreimage.toList, WF32 p) :
    deserPeer (serPeer r) = some r := by
  unfold deserPeer serPeer
  simp only [mapM_hex_roundtrip r.issuedPreimages h1, Option.bind_eq_bind,
    Option.some_bind]
  match htp : r.theirPreimage with
  | none =>
    show some _ = some r
    rw [← htp]
  | some p =>
    have hp : WF32 p := by
      apply h2
      simp [htp]
    simp only [Option.map_some', hex_to_bytes_WF32 _ hp, Option.some_bind,
      Option.some.injEq]
    rw [← htp]

theorem mapM_deser_save {β σ : Type} (ser : β → σ) (deser : σ → Option β)
    (l : List (List Nat × β))
    (hval : ∀ kv ∈ l, deser (ser kv.2) = some kv.2) :
    (l.map (fun kv => (bytes_to_hex kv.1, ser kv.2))).mapM
        (fun kv => (deser kv.2).map fun r => (kv.1, r)) =
      some (l.map (fun kv => (bytes_to_hex kv.1, kv.2))) := by
  induction l with
  | nil => rfl
  | cons kv rest ih =>
    have h1 : deser (ser kv.2) = some kv.2 := hval kv (List.mem_cons_self kv rest)
    have hrest : ∀ x ∈ rest, deser (ser x.2) = some x.2 :=
      fun x hx => hval x (List.mem_cons_of_mem kv hx)
    simp only [List.map_cons, List.mapM_cons, h1, ih hrest, Option.map_some',
      Option.bind_eq_bind, Option.some_bind, Option.pure_def]

theorem filterMap_hex_keys {β : Type} (l : List (List Nat × β))
    (hkey : ∀ kv ∈ l, WF32 kv.1) :
    (l.map (fun kv => (bytes_to_hex kv.1, kv.2))).filterMap
        (fun kv => (hex_to_bytes kv.1).map fun k => (k, kv.2)) = l := by
  induction l with
  | nil => rfl
  | cons kv rest ih =>
    have h1 : WF32 kv.1 := (hkey kv (List.mem_cons_self kv rest))
    have hrest : ∀ x ∈ rest, WF32 x.1 :=
      fun x hx => hkey x (List.mem_cons_of_mem kv hx)
    simp only [List.map_cons, List.filterMap_cons, hex_to_bytes_WF32 _ h1,
      Option.map_some', ih hrest]

/-! ## Relay router (`bhumi-relay/src/router.rs`) -/

/-- Record `CachedResponse`. -/
structure CachedResponse where
  response : List Nat
  expiresAt : Nat
deriving DecidableEq

/-- Per-device state at the router. `chanOpen` models whether the session
side of the `mpsc` delivery channel is still alive (`sender.send` fails
once the receiver is dropped); `queue` is the FIFO of `PendingDelivery`
values successfully enqueued to the session. -/
structure RouterDevice where
  commits : List (List Nat)
  chanOpen : Bool
  queue : List (Nat × List Nat)
deriving DecidableEq

/-- Record `Router` state: `devices`, `response_cache`, `pending` (msg_id to the
admitted preimage; the one-shot sender is represented by the entry itself —
it is alive exactly while the entry is in the map), `next_msg_id`.
`cache_ttl` is the constant 300 seconds. -/
structure RouterState where
  devices : List (List Nat × RouterDevice)
  responseCache : List (List Nat × CachedResponse)
  pending : List (Nat × List Nat)
  nextMsgId : Nat
deriving DecidableEq

def cacheTtl : Nat := 300

/-- Result of `route_message` as observable at the routing step: either an
immediate `SendOutcome` (the paths that return without awaiting a
response) or `admitted msgId` (commit consumed, DELIVER enqueued, a
one-shot waiter installed under `msgId`). -/
inductive RouteResult
  | immediate (status : Nat) (payload : List Nat)
  | admitted (msgId : Nat)
deriving DecidableEq

/-- Steps 2-5 of `Router::route_message` (after the cache check):
recipient lookup, the atomic `commits.remove(&commit)` admission, `msg_id`
allocation, pending-waiter installation and delivery enqueue (with the
enqueue-failure path removing the waiter again). -/
def routeAdmit (hash : List Nat → List Nat) (st1 : RouterState) (now : Nat)
    (toId52 preimage payload : List Nat) : RouteResult × RouterState :=
  match lookupA toId52 st1.devices with
  | none => (.immediate SEND_ERR_NOT_CONNECTED [], st1)
  | some dev =>
    if hash preimage ∈ dev.commits then
      if dev.chanOpen then
        (.admitted st1.nextMsgId,
          { st1 with
              devices := insertA toId52
                { dev with
                    commits := dev.commits.filter (fun c => c ≠ hash preimage)
                    queue := dev.queue ++ [(st1.nextMsgId, payload)] }
                st1.devices
              pending := insertA st1.nextMsgId preimage st1.pending
              nextMsgId := st1.nextMsgId + 1 })
      else
        (.immediate SEND_ERR_DISCONNECTED [],
          { st1 with
              devices := insertA toId52
                { dev with
                    commits := dev.commits.filter (fun c => c ≠ hash preimage) }
                st1.devices
              pending := removeA st1.nextMsgId
                (insertA st1.nextMsgId preimage st1.pending)
              nextMsgId := st1.nextMsgId + 1 })
    else (.immediate SEND_ERR_INVALID_PREIMAGE [], st1)

/-- Model of `Router::route_message`. Mirrors the source step by step:
1. remove any cache entry under the preimage; if it was unexpired, return
   `(OK, cached)`;
2. hash the preimage; unknown recipient → `NOT_CONNECTED` (`routeAdmit`);
3. `commits.remove(&commit)` false → `INVALID_PREIMAGE`; otherwise the
   commit is consumed, a `msg_id` allocated, the pending waiter installed,
   and the delivery enqueued — or, if the channel is closed, the pending
   entry is removed again and `DISCONNECTED` returned (`routeAdmit`). -/
def routeMessage (hash : List Nat → List Nat) (st : RouterState) (now : Nat)
    (toId52 preimage payload : List Nat) : RouteResult × RouterState :=
  match removeLookup preimage st.responseCache with
  | some (c, rest) =>
    if now < c.expiresAt then
      (.immediate SEND_OK c.response, { st with responseCache := rest })
    else
      routeAdmit hash { st with responseCache := rest } now toId52 preimage
        payload
  | none => routeAdmit hash st now toId52 preimage payload

/-- Model of `Router::handle_ack`: take the pending entry (absent → drop silently),
cache the response under the admitted preimage with a fresh TTL, and
resolve the waiter (the resolved payload is the second component). -/
def handleAck (st : RouterState) (now : Nat) (msgId : Nat)
    (response : List Nat) : RouterState × Option (List Nat) :=
  match removeLookup msgId st.pending with
  | none => (st, none)
  | some (preimage, pending2) =>
    ({ st with
        pending := pending2
        responseCache :=
          insertA preimage ⟨response, now + cacheTtl⟩ st.responseCache },
      some response)

/-- Model of `Router::unregister`: remove the device entry. Nothing else is
touched — in particular `pending` survives. -/
def unregister (st : RouterState) (id52 : List Nat) : RouterState :=
  { st with devices := removeA id52 st.devices }

/-- Model of `Router::register`: insert the device (fresh channel, empty queue) and
preload `recent_responses` into the response cache with a fresh TTL. -/
def register (st : RouterState) (id52 : List Nat) (commits : List (List Nat))
    (recent : List (List Nat × List Nat)) (now : Nat) : RouterState :=
  { st with
      devices := insertA id52 ⟨commits, true, []⟩ st.devices
      responseCache := recent.foldl
        (fun cache pr => insertA pr.1 ⟨pr.2, now + cacheTtl⟩ cache)
        st.responseCache }

/-- The sender side of an admitted SEND awaits the one-shot waiter under a
30-second deadline (`tokio::time::timeout(30s, response_rx)`):
`some (some r)` — resolved with `r` → `(OK, r)`;
`some none` — channel closed, the sender half was dropped without a send →
`DISCONNECTED`; `none` — deadline elapsed → `TIMEOUT`. -/
def awaitOutcome : Option (Option (List Nat)) → Nat × List Nat
  | some (some r) => (SEND_OK, r)
  | some none => (SEND_ERR_DISCONNECTED, [])
  | none => (SEND_ERR_TIMEOUT, [])

/-! ## Relay session dispatch (`bhumi-relay/src/session.rs`) -/

/-- Result of `Session::handle_frame` as it affects the router. -/
structure SessionFrameResult where
  router : RouterState
  selfId : Option (List Nat)
  reply : Option RouteResult
deriving DecidableEq

/-- Model of `Session::handle_frame`: the `match frame.msg_type` dispatch. Only
`I_AM`, `SEND` and `ACK` have arms; every other type — including
`MSG_UPDATE_COMMITS` (0x0008) — falls into the catch-all arm, which only
prints "Unknown message type" and changes nothing. Ed25519 verification
of the I_AM signature is the oracle `sigOk`; decode failures (`?`) are
`none` (the session loop ends with an error). -/
def handleFrame (hash : List Nat → List Nat) (sigOk : IAm → Bool)
    (st : RouterState) (now : Nat) (selfId : Option (List Nat))
    (frame : Frame) : Option SessionFrameResult :=
  if frame.msgType = MSG_I_AM then
    match IAm.fromBytes frame.payload with
    | none => none
    | some iam =>
      if sigOk iam then
        let st1 := match selfId with
          | some oldId => unregister st oldId
          | none => st
        some ⟨register st1 iam.id52 iam.commits
            (iam.recentResponses.map (fun r => (r.preimage, r.response))) now,
          some iam.id52, none⟩
      else none
  else if frame.msgType = MSG_SEND then
    match Send.fromBytes frame.payload with
    | none => none
    | some sendMsg =>
      let out := routeMessage hash st now sendMsg.toId52 sendMsg.preimage
        sendMsg.payload
      some ⟨out.2, selfId, some out.1⟩
  else if frame.msgType = MSG_ACK then
    match Ack.fromBytes frame.payload with
    | none => none
    | some ack => some ⟨(handleAck st now ack.msgId ack.payload).1, selfId, none⟩
  else
    some ⟨st, selfId, none⟩

/-! ## Router operation traces -/

/-- Router operations that can occur between two `route_message` calls of
interest: further routed SENDs, ACKs, and session terminations
(`unregister`). -/
inductive RouterOp
  | route (now : Nat) (toId52 preimage payload : List Nat)
  | ack (now : Nat) (msgId : Nat) (response : List Nat)
  | unreg (id52 : List Nat)

def applyOp (hash : List Nat → List Nat) (st : RouterState) :
    RouterOp → RouterState
  | .route now toId52 preimage payload =>
    (routeMessage hash st now toId52 preimage payload).2
  | .ack now msgId response => (handleAck st now msgId response).1
  | .unreg id52 => unregister st id52

def runOps (hash : List Nat → List Nat) (st : RouterState)
    (ops : List RouterOp) : RouterState :=
  ops.foldl (applyOp hash) st

/-! ## Client response parsing

`Node::send` (`bhumi-node/src/node.rs`, lines 236-257) and
`Device::send_command` (`bhumi-device/src/lib.rs`, lines 236-247) both
split a SEND_RESULT payload into a JSON part and an optional trailing
32-byte successor preimage, but in different ways. `dec` is the
`serde_json::from_slice::<Response>(..).is_ok()` oracle. The result is
`(json_part, peeled_preimage)`. -/

/-- Model of `Node::send`: if `response_len > 32`, try to JSON-decode the FULL
buffer; only when that fails, peel the last 32 bytes. -/
def nodeParseResponse (dec : List Nat → Bool) (payload : List Nat) :
    List Nat × Option (List Nat) :=
  if 32 < payload.length then
    if dec payload then (payload, none)
    else (payload.take (payload.length - 32),
      some (payload.drop (payload.length - 32)))
  else (payload, none)

/-- Model of `Device::send_command`: if `response_len >= 32`, try to JSON-decode
the buffer MINUS its last 32 bytes, and peel exactly when that prefix
decodes. -/
def deviceParseResponse (dec : List Nat → Bool) (payload : List Nat) :
    List Nat × Option (List Nat) :=
  if 32 ≤ payload.length then
    let potential := payload.take (payload.length - 32)
    if dec potential then (potential, some (payload.drop (payload.length - 32)))
    else (payload, none)
  else (payload, none)

/-! ## Router trace lemmas -/

theorem mem_insertA {κ α : Type} [DecidableEq κ] (k : κ) (v : α)
    (l : List (κ × α)) (kv : κ × α) (h : kv ∈ insertA k v l) :
    kv = (k, v) ∨ kv ∈ l := by
  induction l with
  | nil =>
    simp only [insertA, List.mem_singleton] at h
    exact Or.inl h
  | cons p rest ih =>
    obtain ⟨k2, v2⟩ := p
    by_cases hk : k = k2
    · simp only [insertA, if_pos hk, List.mem_cons] at h
      rcases h with h | h
      · exact Or.inl h
      · exact Or.inr (List.mem_cons_of_mem _ h)
    · simp only [insertA, if_neg hk, List.mem_cons] at h
      rcases h with h | h
      · exact Or.inr (by simp [h])
      · rcases ih h with h2 | h2
        · exact Or.inl h2
        · exact Or.inr (List.mem_cons_of_mem _ h2)

theorem mem_removeA {κ α : Type} [DecidableEq κ] (k : κ)
    (l : List (κ × α)) (kv : κ × α) (h : kv ∈ removeA k l) : kv ∈ l := by
  induction l with
  | nil => simp [removeA] at h
  | cons p rest ih =>
    obtain ⟨k2, v2⟩ := p
    by_cases hk : k = k2
    · simp only [removeA, if_pos hk] at h
      exact List.mem_cons_of_mem _ h
    · simp only [removeA, if_neg hk, List.mem_cons] at h
      rcases h with h | h
      · simp [h]
      · exact List.mem_cons_of_mem _ (ih h)

theorem lookupA_mem {κ α : Type} [DecidableEq κ] (k : κ) (v : α)
    (l : List (κ × α)) (h : lookupA k l = some v) : (k, v) ∈ l := by
  induction l with
  | nil => simp [lookupA] at h
  | cons p rest ih =>
    obtain ⟨k2, v2⟩ := p
    by_cases hk : k = k2
    · simp only [lookupA, if_pos hk, Option.some.injEq] at h
      simp [hk, h]
    · simp only [lookupA, if_neg hk] at h
      exact List.mem_cons_of_mem _ (ih h)

/-- No device at the router holds commit `c`. -/
def commitAbsent (st : RouterState) (c : List Nat) : Prop :=
  ∀ kv ∈ st.devices, c ∉ kv.2.commits

/-! Equation lemmas for `routeAdmit` and `routeMessage`, one per branch of
the source control flow. -/

theorem routeAdmit_not_connected (hash : List Nat → List Nat)
    (st1 : RouterState) (now : Nat) (toId52 preimage payload : List Nat)
    (hdev : lookupA toId52 st1.devices = none) :
    routeAdmit hash st1 now toId52 preimage payload =
      (.immediate SEND_ERR_NOT_CONNECTED [], st1) := by
  unfold routeAdmit
  rw [hdev]

theorem routeAdmit_invalid (hash : List Nat → List Nat)
    (st1 : RouterState) (now : Nat) (toId52 preimage payload : List Nat)
    (dev : RouterDevice) (hdev : lookupA toId52 st1.devices = some dev)
    (hcm : hash preimage ∉ dev.commits) :
    routeAdmit hash st1 now toId52 preimage payload =
      (.immediate SEND_ERR_INVALID_PREIMAGE [], st1) := by
  unfold routeAdmit
  rw [hdev]
  dsimp only
  rw [if_neg hcm]

theorem routeAdmit_delivered (hash : List Nat → List Nat)
    (st1 : RouterState) (now : Nat) (toId52 preimage payload : List Nat)
    (dev : RouterDevice) (hdev : lookupA toId52 st1.devices = some dev)
    (hcm : hash preimage ∈ dev.commits) (hch : dev.chanOpen = true) :
    routeAdmit hash st1 now toId52 preimage payload =
      (.admitted st1.nextMsgId,
        { st1 with
            devices := insertA toId52
              { dev with
                  commits := dev.commits.filter (fun c => c ≠ hash preimage)
                  queue := dev.queue ++ [(st1.nextMsgId, payload)] }
              st1.devices
            pending := insertA st1.nextMsgId preimage st1.pending
            nextMsgId := st1.nextMsgId + 1 }) := by
  unfold routeAdmit
  rw [hdev]
  dsimp only
  rw [if_pos hcm, hch, if_pos rfl]

theorem routeAdmit_closed (hash : List Nat → List Nat)
    (st1 : RouterState) (now : Nat) (toId52 preimage payload : List Nat)
    (dev : RouterDevice) (hdev : lookupA toId52 st1.devices = some dev)
    (hcm : hash preimage ∈ dev.commits) (hch : dev.chanOpen = false) :
    routeAdmit hash st1 now toId52 preimage payload =
      (.immediate SEND_ERR_DISCONNECTED [],
        { st1 with
            devices := insertA toId52
              { dev with
                  commits := dev.commits.filter (fun c => c ≠ hash preimage) }
              st1.devices
            pending := removeA st1.nextMsgId
              (insertA st1.nextMsgId preimage st1.pending)
            nextMsgId := st1.nextMsgId + 1 }) := by
  unfold routeAdmit
  rw [hdev]
  dsimp only
  rw [if_pos hcm, hch, if_neg Bool.false_ne_true]

theorem routeMessage_cache_hit (hash : List Nat → List Nat)
    (st : RouterState) (now : Nat) (toId52 preimage payload : List Nat)
    (cc : CachedResponse) (rest : List (List Nat × CachedResponse))
    (hrl : removeLookup preimage st.responseCache = some (cc, rest))
    (hexp : now < cc.expiresAt) :
    routeMessage hash st now toId52 preimage payload =
      (.immediate SEND_OK cc.response, { st with responseCache := rest }) := by
  unfold routeMessage
  rw [hrl]
  dsimp only
  rw [if_pos hexp]

theorem routeMessage_cache_expired (hash : List Nat → List Nat)
    (st : RouterState) (now : Nat) (toId52 preimage payload : List Nat)
    (cc : CachedResponse) (rest : List (List Nat × CachedResponse))
    (hrl : removeLookup preimage st.responseCache = some (cc, rest))
    (hexp : ¬ now < cc.expiresAt) :
    routeMessage hash st now toId52 preimage payload =
      routeAdmit hash { st with responseCache := rest } now toId52 preimage
        payload := by
  unfold routeMessage
  rw [hrl]
  dsimp only
  rw [if_neg hexp]

theorem routeMessage_cache_miss (hash : List Nat → List Nat)
    (st : RouterState) (now : Nat) (toId52 preimage payload : List Nat)
    (hrl : removeLookup preimage st.responseCache = none) :
    routeMessage hash st now toId52 preimage payload =
      routeAdmit hash st now toId52 preimage payload := by
  unfold routeMessage
  rw [hrl]

/-- Lemma: `routeAdmit` only ever removes commits from a device's set. -/
theorem routeAdmit_preserves_commitAbsent (hash : List Nat → List Nat)
    (st1 : RouterState) (now : Nat) (toId52 preimage payload : List Nat)
    (c : List Nat) (h : commitAbsent st1 c) :
    commitAbsent (routeAdmit hash st1 now toId52 preimage payload).2 c := by
  rcases hdev : lookupA toId52 st1.devices with _ | dev
  · rw [routeAdmit_not_connected hash st1 now toId52 preimage payload hdev]
    exact h
  · by_cases hcm : hash preimage ∈ dev.commits
    · have hfilter : ∀ kv, kv ∈ insertA toId52
          { dev with
              commits := dev.commits.filter (fun c2 => c2 ≠ hash preimage)
              queue := dev.queue ++ [(st1.nextMsgId, payload)] } st1.devices ∨
          kv ∈ insertA toId52
          { dev with
              commits := dev.commits.filter (fun c2 => c2 ≠ hash preimage) }
            st1.devices →
          c ∉ kv.2.commits := by
        intro kv hkv
        have hmem : kv = ⟨toId52,
              { dev with
                  commits := dev.commits.filter (fun c2 => c2 ≠ hash preimage)
                  queue := dev.queue ++ [(st1.nextMsgId, payload)] }⟩ ∨
            kv = ⟨toId52,
              { dev with
                  commits :=
                    dev.commits.filter (fun c2 => c2 ≠ hash preimage) }⟩ ∨
            kv ∈ st1.devices := by
          rcases hkv with hkv | hkv
          · rcases mem_insertA _ _ _ _ hkv with he | he
            · exact Or.inl he
            · exact Or.inr (Or.inr he)
          · rcases mem_insertA _ _ _ _ hkv with he | he
            · exact Or.inr (Or.inl he)
            · exact Or.inr (Or.inr he)
        rcases hmem with he | he | he
        · subst he
          simp only [List.mem_filter, decide_eq_true_eq]
          intro hmem2
          exact absurd hmem2.1 (h (toId52, dev) (lookupA_mem _ _ _ hdev))
        · subst he
          simp only [List.mem_filter, decide_eq_true_eq]
          intro hmem2
          exact absurd hmem2.1 (h (toId52, dev) (lookupA_mem _ _ _ hdev))
        · exact h kv he
      by_cases hch : dev.chanOpen
      · rw [routeAdmit_delivered hash st1 now toId52 preimage payload dev hdev hcm hch]
        intro kv hkv
        exact hfilter kv (Or.inl hkv)
      · rw [routeAdmit_closed hash st1 now toId52 preimage payload dev hdev hcm
          (Bool.not_eq_true _ ▸ hch)]
        intro kv hkv
        exact hfilter kv (Or.inr hkv)
    · rw [routeAdmit_invalid hash st1 now toId52 preimage payload dev hdev hcm]
      exact h

/-- Lemma: `route_message` only ever removes commits: once a commit is absent
from every device, it stays absent. -/
theorem routeMessage_preserves_commitAbsent (hash : List Nat → List Nat)
    (st : RouterState) (now : Nat) (toId52 preimage payload : List Nat)
    (c : List Nat) (h : commitAbsent st c) :
    commitAbsent (routeMessage hash st now toId52 preimage payload).2 c := by
  rcases hrl : removeLookup preimage st.responseCache with _ | ⟨cc, rest⟩
  · rw [routeMessage_cache_miss hash st now toId52 preimage payload hrl]
    exact routeAdmit_preserves_commitAbsent hash st now _ _ _ c h
  · by_cases hexp : now < cc.expiresAt
    · rw [routeMessage_cache_hit hash st now toId52 preimage payload cc rest hrl hexp]
      exact h
    · rw [routeMessage_cache_expired hash st now toId52 preimage payload cc rest
        hrl hexp]
      exact routeAdmit_preserves_commitAbsent hash _ now _ _ _ c h

theorem applyOp_preserves_commitAbsent (hash : List Nat → List Nat)
    (st : RouterState) (op : RouterOp) (c : List Nat)
    (h : commitAbsent st c) : commitAbsent (applyOp hash st op) c := by
  match op with
  | .route now toId52 preimage payload =>
    exact routeMessage_preserves_commitAbsent hash st now toId52 preimage
      payload c h
  | .ack now msgId response =>
    intro kv hkv
    have hdev : (applyOp hash st (RouterOp.ack now msgId response)).devices =
        st.devices := by
      simp only [applyOp, handleAck]
      rcases hx : removeLookup msgId st.pending with _ | ⟨p2, rest⟩ <;> simp [hx]
    rw [hdev] at hkv
    exact h kv hkv
  | .unreg id52 =>
    intro kv hkv
    exact h kv (mem_removeA _ _ _ hkv)

theorem runOps_preserves_commitAbsent (hash : List Nat → List Nat)
    (st : RouterState) (ops : List RouterOp) (c : List Nat)
    (h : commitAbsent st c) : commitAbsent (runOps hash st ops) c := by
  induction ops generalizing st with
  | nil => exact h
  | cons op rest ih =>
    exact ih (applyOp hash st op) (applyOp_preserves_commitAbsent hash st op c h)

theorem mem_insertA_nodup {κ α : Type} [DecidableEq κ] (k : κ) (v : α)
    (l : List (κ × α)) (kv : κ × α) (hnd : (l.map Prod.fst).Nodup)
    (h : kv ∈ insertA k v l) : kv = (k, v) ∨ (kv ∈ l ∧ kv.1 ≠ k) := by
  induction l with
  | nil =>
    simp only [insertA, List.mem_singleton] at h
    exact Or.inl h
  | cons p rest ih =>
    obtain ⟨k2, v2⟩ := p
    simp only [List.map_cons, List.nodup_cons] at hnd
    obtain ⟨hnotin, hnd2⟩ := hnd
    by_cases hk : k = k2
    · subst hk
      simp only [insertA, if_true, eq_self_iff_true, List.mem_cons] at h
      rcases h with h1 | h1
      · exact Or.inl h1
      · refine Or.inr ⟨List.mem_cons_of_mem _ h1, ?_⟩
        intro hfst
        exact hnotin (hfst ▸ List.mem_map_of_mem Prod.fst h1)
    · simp only [insertA, if_neg hk, List.mem_cons] at h
      rcases h with h | h
      · subst h
        exact Or.inr ⟨List.mem_cons_self _ _, fun he => hk he.symm⟩
      · rcases ih hnd2 h with h2 | h2
        · exact Or.inl h2
        · exact Or.inr ⟨List.mem_cons_of_mem _ h2.1, h2.2⟩

/-- If `routeAdmit` admits, then afterwards no device holds the consumed
commit — provided no device other than the recipient held it before. -/
theorem routeAdmit_admitted_commitAbsent (hash : List Nat → List Nat)
    (st1 : RouterState) (now : Nat) (toId52 preimage payload : List Nat)
    (hnd : (st1.devices.map Prod.fst).Nodup)
    (hothers : ∀ kv ∈ st1.devices, kv.1 ≠ toId52 → hash preimage ∉ kv.2.commits)
    (m : Nat)
    (hadm : (routeAdmit hash st1 now toId52 preimage payload).1 = .admitted m) :
    commitAbsent (routeAdmit hash st1 now toId52 preimage payload).2
      (hash preimage) := by
  rcases hdev : lookupA toId52 st1.devices with _ | dev
  · rw [routeAdmit_not_connected hash st1 now toId52 preimage payload hdev] at hadm
    simp at hadm
  · by_cases hcm : hash preimage ∈ dev.commits
    · by_cases hch : dev.chanOpen
      · rw [routeAdmit_delivered hash st1 now toId52 preimage payload dev hdev hcm hch]
        intro kv hkv
        rcases mem_insertA_nodup _ _ _ _ hnd hkv with he | he
        · subst he
          simp only [List.mem_filter, decide_eq_true_eq]
          intro hmem
          exact hmem.2 rfl
        · exact hothers kv he.1 he.2
      · rw [routeAdmit_closed hash st1 now toId52 preimage payload dev hdev hcm
          (Bool.not_eq_true _ ▸ hch)] at hadm
        simp at hadm
    · rw [routeAdmit_invalid hash st1 now toId52 preimage payload dev hdev hcm]
        at hadm
      simp at hadm

/-- If `route_message` admits, then afterwards no device holds the
consumed commit (same side conditions). -/
theorem routeMessage_admitted_commitAbsent (hash : List Nat → List Nat)
    (st : RouterState) (now : Nat) (toId52 preimage payload : List Nat)
    (hnd : (st.devices.map Prod.fst).Nodup)
    (hothers : ∀ kv ∈ st.devices, kv.1 ≠ toId52 → hash preimage ∉ kv.2.commits)
    (m : Nat)
    (hadm : (routeMessage hash st now toId52 preimage payload).1 = .admitted m) :
    commitAbsent (routeMessage hash st now toId52 preimage payload).2
      (hash preimage) := by
  rcases hrl : removeLookup preimage st.responseCache with _ | ⟨cc, rest⟩
  · rw [routeMessage_cache_miss hash st now toId52 preimage payload hrl] at hadm ⊢
    exact routeAdmit_admitted_commitAbsent hash st now _ _ _ hnd hothers m hadm
  · by_cases hexp : now < cc.expiresAt
    · rw [routeMessage_cache_hit hash st now toId52 preimage payload cc rest hrl
        hexp] at hadm
      simp at hadm
    · rw [routeMessage_cache_expired hash st now toId52 preimage payload cc rest
        hrl hexp] at hadm ⊢
      exact routeAdmit_admitted_commitAbsent hash _ now _ _ _ hnd hothers m hadm

/-- When no device holds the commit, `routeAdmit` returns `NOT_CONNECTED`
or `INVALID_PREIMAGE` and changes nothing. -/
theorem routeAdmit_commit_absent_outcome (hash : List Nat → List Nat)
    (st1 : RouterState) (now : Nat) (toId52 preimage payload : List Nat)
    (h : commitAbsent st1 (hash preimage)) :
    ((routeAdmit hash st1 now toId52 preimage payload).1 =
        .immediate SEND_ERR_NOT_CONNECTED [] ∨
      (routeAdmit hash st1 now toId52 preimage payload).1 =
        .immediate SEND_ERR_INVALID_PREIMAGE []) ∧
    (routeAdmit hash st1 now toId52 preimage payload).2 = st1 ∧
    (lookupA toId52 st1.devices ≠ none →
      (routeAdmit hash st1 now toId52 preimage payload).1 =
        .immediate SEND_ERR_INVALID_PREIMAGE []) := by
  rcases hdev : lookupA toId52 st1.devices with _ | dev
  · rw [routeAdmit_not_connected hash st1 now toId52 preimage payload hdev]
    refine ⟨Or.inl rfl, rfl, fun hne => ?_⟩
    exact absurd rfl hne
  · have hcm : hash preimage ∉ dev.commits :=
      h (toId52, dev) (lookupA_mem _ _ _ hdev)
    rw [routeAdmit_invalid hash st1 now toId52 preimage payload dev hdev hcm]
    exact ⟨Or.inr rfl, rfl, fun _ => rfl⟩

/-- When no device holds `SHA256(preimage)`, `route_message` with that
preimage cannot admit: it returns the cached response, `NOT_CONNECTED`
(unknown recipient) or `INVALID_PREIMAGE`, and leaves every device — in
particular every delivery queue — untouched. -/
theorem routeMessage_commit_absent_outcome (hash : List Nat → List Nat)
    (st : RouterState) (now : Nat) (toId52 preimage payload : List Nat)
    (h : commitAbsent st (hash preimage)) :
    ((∃ resp, (routeMessage hash st now toId52 preimage payload).1 =
        .immediate SEND_OK resp) ∨
      (routeMessage hash st now toId52 preimage payload).1 =
        .immediate SEND_ERR_NOT_CONNECTED [] ∨
      (routeMessage hash st now toId52 preimage payload).1 =
        .immediate SEND_ERR_INVALID_PREIMAGE []) ∧
    (routeMessage hash st now toId52 preimage payload).2.devices =
      st.devices ∧
    (lookupA toId52 st.devices ≠ none →
      (∃ resp, (routeMessage hash st now toId52 preimage payload).1 =
          .immediate SEND_OK resp) ∨
        (routeMessage hash st now toId52 preimage payload).1 =
          .immediate SEND_ERR_INVALID_PREIMAGE []) := by
  rcases hrl : removeLookup preimage st.responseCache with _ | ⟨cc, rest⟩
  · rw [routeMessage_cache_miss hash st now toId52 preimage payload hrl]
    obtain ⟨ho, hs, hc⟩ := routeAdmit_commit_absent_outcome hash st now toId52
      preimage payload h
    exact ⟨Or.inr ho, by rw [hs], fun hne => Or.inr (hc hne)⟩
  · by_cases hexp : now < cc.expiresAt
    · rw [routeMessage_cache_hit hash st now toId52 preimage payload cc rest hrl
        hexp]
      exact ⟨Or.inl ⟨cc.response, rfl⟩, rfl, fun _ => Or.inl ⟨cc.response, rfl⟩⟩
    · rw [routeMessage_cache_expired hash st now toId52 preimage payload cc rest
        hrl hexp]
      obtain ⟨ho, hs, hc⟩ := routeAdmit_commit_absent_outcome hash
        { st with responseCache := rest } now toId52 preimage payload h
      exact ⟨Or.inr ho, by rw [hs], fun hne => Or.inr (hc hne)⟩

/-! Equation lemmas for `handleAck`. -/

theorem handleAck_miss (st : RouterState) (now msgId : Nat)
    (response : List Nat) (h : removeLookup msgId st.pending = none) :
    handleAck st now msgId response = (st, none) := by
  unfold handleAck
  rw [h]

theorem handleAck_hit (st : RouterState) (now msgId : Nat)
    (response : List Nat) (preimage : List Nat)
    (rest : List (Nat × List Nat))
    (h : removeLookup msgId st.pending = some (preimage, rest)) :
    handleAck st now msgId response =
      ({ st with
          pending := rest
          responseCache :=
            insertA preimage ⟨response, now + cacheTtl⟩ st.responseCache },
        some response) := by
  unfold handleAck
  rw [h]

/-! ## Pending-waiter persistence

`pending` entries model live one-shot waiter senders: an entry is resolved
only by `handle_ack` taking it (`tx.send`), and would be dropped without a
send only if another `route_message` overwrote the same `msg_id` — which
cannot happen while `pending` keys stay below the monotone `next_msg_id`
counter. -/

/-- Every pending msg_id is below the allocator. -/
def pendingKeysLt (st : RouterState) : Prop :=
  ∀ kv ∈ st.pending, kv.1 < st.nextMsgId

instance (st : RouterState) : Decidable (pendingKeysLt st) := by
  unfold pendingKeysLt
  infer_instance

theorem routeAdmit_nextMsgId_mono (hash : List Nat → List Nat)
    (st1 : RouterState) (now : Nat) (toId52 preimage payload : List Nat) :
    st1.nextMsgId ≤ (routeAdmit hash st1 now toId52 preimage payload).2.nextMsgId := by
  rcases hdev : lookupA toId52 st1.devices with _ | dev
  · rw [routeAdmit_not_connected hash st1 now toId52 preimage payload hdev]
  · by_cases hcm : hash preimage ∈ dev.commits
    · by_cases hch : dev.chanOpen
      · rw [routeAdmit_delivered hash st1 now toId52 preimage payload dev hdev hcm hch]
        exact Nat.le_succ _
      · rw [routeAdmit_closed hash st1 now toId52 preimage payload dev hdev hcm
          (Bool.not_eq_true _ ▸ hch)]
        exact Nat.le_succ _
    · rw [routeAdmit_invalid hash st1 now toId52 preimage payload dev hdev hcm]

theorem applyOp_nextMsgId_mono (hash : List Nat → List Nat)
    (st : RouterState) (op : RouterOp) :
    st.nextMsgId ≤ (applyOp hash st op).nextMsgId := by
  match op with
  | .route now toId52 preimage payload =>
    show st.nextMsgId ≤ (routeMessage hash st now toId52 preimage payload).2.nextMsgId
    rcases hrl : removeLookup preimage st.responseCache with _ | ⟨cc, rest⟩
    · rw [routeMessage_cache_miss hash st now toId52 preimage payload hrl]
      exact routeAdmit_nextMsgId_mono hash st now toId52 preimage payload
    · by_cases hexp : now < cc.expiresAt
      · rw [routeMessage_cache_hit hash st now toId52 preimage payload cc rest hrl hexp]
      · rw [routeMessage_cache_expired hash st now toId52 preimage payload cc rest hrl hexp]
        exact routeAdmit_nextMsgId_mono hash { st with responseCache := rest }
          now toId52 preimage payload
  | .ack now msgId response =>
    show st.nextMsgId ≤ (handleAck st now msgId response).1.nextMsgId
    rcases hrl : removeLookup msgId st.pending with _ | ⟨p, rest⟩
    · rw [handleAck_miss st now msgId response hrl]
    · rw [handleAck_hit st now msgId response p rest hrl]
  | .unreg id52 => exact le_refl _

theorem routeAdmit_preserves_pendingKeysLt (hash : List Nat → List Nat)
    (st1 : RouterState) (now : Nat) (toId52 preimage payload : List Nat)
    (h : pendingKeysLt st1) :
    pendingKeysLt (routeAdmit hash st1 now toId52 preimage payload).2 := by
  rcases hdev : lookupA toId52 st1.devices with _ | dev
  · rw [routeAdmit_not_connected hash st1 now toId52 preimage payload hdev]
    exact h
  · by_cases hcm : hash preimage ∈ dev.commits
    · by_cases hch : dev.chanOpen
      · rw [routeAdmit_delivered hash st1 now toId52 preimage payload dev hdev hcm hch]
        intro kv hkv
        rcases mem_insertA _ _ _ _ hkv with he | he
        · subst he
          exact Nat.lt_succ_self _
        · exact Nat.lt_succ_of_lt (h kv he)
      · rw [routeAdmit_closed hash st1 now toId52 preimage payload dev hdev hcm
          (Bool.not_eq_true _ ▸ hch)]
        intro kv hkv
        rcases mem_insertA _ _ _ _ (mem_removeA _ _ _ hkv) with he | he
        · subst he
          exact Nat.lt_succ_self _
        · exact Nat.lt_succ_of_lt (h kv he)
    · rw [routeAdmit_invalid hash st1 now toId52 preimage payload dev hdev hcm]
      exact h

theorem applyOp_preserves_pendingKeysLt (hash : List Nat → List Nat)
    (st : RouterState) (op : RouterOp) (h : pendingKeysLt st) :
    pendingKeysLt (applyOp hash st op) := by
  match op with
  | .route now toId52 preimage payload =>
    show pendingKeysLt (routeMessage hash st now toId52 preimage payload).2
    rcases hrl : removeLookup preimage st.responseCache with _ | ⟨cc, rest⟩
    · rw [routeMessage_cache_miss hash st now toId52 preimage payload hrl]
      exact routeAdmit_preserves_pendingKeysLt hash st now toId52 preimage payload h
    · by_cases hexp : now < cc.expiresAt
      · rw [routeMessage_cache_hit hash st now toId52 preimage payload cc rest hrl hexp]
        exact h
      · rw [routeMessage_cache_expired hash st now toId52 preimage payload cc rest hrl hexp]
        exact routeAdmit_preserves_pendingKeysLt hash _ now toId52 preimage payload h
  | .ack now msgId response =>
    show pendingKeysLt (handleAck st now msgId response).1
    rcases hrl : removeLookup msgId st.pending with _ | ⟨p, rest⟩
    · rw [handleAck_miss st now msgId response hrl]
      exact h
    · rw [handleAck_hit st now msgId response p rest hrl]
      intro kv hkv
      obtain ⟨hlk, hrest⟩ := removeLookup_some msgId st.pending p rest hrl
      exact h kv (mem_removeA _ _ _ (hrest ▸ hkv))
  | .unreg id52 => exact h

/-- Predicate: `op` does not acknowledge `m`. -/
def notAckFor (m : Nat) : RouterOp → Prop
  | .ack _ msgId _ => msgId ≠ m
  | _ => True

/-- A pending waiter survives any router operation other than its own ACK:
in particular, `unregister` (client disconnect) does not release it. -/
theorem applyOp_pending_persists (hash : List Nat → List Nat)
    (st : RouterState) (op : RouterOp) (m : Nat) (p : List Nat)
    (hlk : lookupA m st.pending = some p) (hkeys : pendingKeysLt st)
    (hna : notAckFor m op) :
    lookupA m (applyOp hash st op).pending = some p := by
  have hm : m < st.nextMsgId := hkeys (m, p) (lookupA_mem _ _ _ hlk)
  match op with
  | .route now toId52 preimage payload =>
    show lookupA m (routeMessage hash st now toId52 preimage payload).2.pending = some p
    have hstep : ∀ st1 : RouterState, st1.pending = st.pending →
        st1.nextMsgId = st.nextMsgId →
        lookupA m (routeAdmit hash st1 now toId52 preimage payload).2.pending = some p := by
      intro st1 hp hn
      rcases hdev : lookupA toId52 st1.devices with _ | dev
      · rw [routeAdmit_not_connected hash st1 now toId52 preimage payload hdev]
        rw [hp]
        exact hlk
      · by_cases hcm : hash preimage ∈ dev.commits
        · by_cases hch : dev.chanOpen
          · rw [routeAdmit_delivered hash st1 now toId52 preimage payload dev hdev hcm hch]
            show lookupA m (insertA st1.nextMsgId preimage st1.pending) = some p
            rw [lookupA_insertA_ne _ _ _ _ (by omega), hp]
            exact hlk
          · rw [routeAdmit_closed hash st1 now toId52 preimage payload dev hdev hcm
              (Bool.not_eq_true _ ▸ hch)]
            show lookupA m (removeA st1.nextMsgId
              (insertA st1.nextMsgId preimage st1.pending)) = some p
            rw [lookupA_removeA_ne _ _ _ (by omega),
              lookupA_insertA_ne _ _ _ _ (by omega), hp]
            exact hlk
        · rw [routeAdmit_invalid hash st1 now toId52 preimage payload dev hdev hcm]
          rw [hp]
          exact hlk
    rcases hrl : removeLookup preimage st.responseCache with _ | ⟨cc, rest⟩
    · rw [routeMessage_cache_miss hash st now toId52 preimage payload hrl]
      exact hstep st rfl rfl
    · by_cases hexp : now < cc.expiresAt
      · rw [routeMessage_cache_hit hash st now toId52 preimage payload cc rest hrl hexp]
        exact hlk
      · rw [routeMessage_cache_expired hash st now toId52 preimage payload cc rest hrl hexp]
        exact hstep { st with responseCache := rest } rfl rfl
  | .ack now msgId response =>
    show lookupA m (handleAck st now msgId response).1.pending = some p
    have hne : msgId ≠ m := hna
    rcases hrl : removeLookup msgId st.pending with _ | ⟨q, rest⟩
    · rw [handleAck_miss st now msgId response hrl]
      exact hlk
    · rw [handleAck_hit st now msgId response q rest hrl]
      obtain ⟨hlk2, hrest⟩ := removeLookup_some msgId st.pending q rest hrl
      show lookupA m rest = some p
      rw [hrest, lookupA_removeA_ne _ _ _ (fun he => hne he.symm)]
      exact hlk
  | .unreg id52 => exact hlk

/-- A pending waiter survives any trace of router operations that never
acknowledges it. -/
theorem runOps_pending_persists (hash : List Nat → List Nat)
    (st : RouterState) (ops : List RouterOp) (m : Nat) (p : List Nat)
    (hlk : lookupA m st.pending = some p) (hkeys : pendingKeysLt st)
    (hna : ∀ op ∈ ops, notAckFor m op) :
    lookupA m (runOps hash st ops).pending = some p := by
  induction ops generalizing st with
  | nil => exact hlk
  | cons op rest ih =>
    exact ih (applyOp hash st op)
      (applyOp_pending_persists hash st op m p hlk hkeys
        (hna op (List.mem_cons_self op rest)))
      (applyOp_preserves_pendingKeysLt hash st op hkeys)
      (fun op2 h2 => hna op2 (List.mem_cons_of_mem op h2))

/-! ## Remaining helper lemmas -/

theorem removeLookup_isSome_iff {κ α : Type} [DecidableEq κ] (k : κ)
    (l : List (κ × α)) : (removeLookup k l).isSome ↔ (lookupA k l).isSome := by
  induction l with
  | nil => simp [removeLookup, lookupA]
  | cons p rest ih =>
    obtain ⟨k2, v2⟩ := p
    by_cases hk : k = k2
    · simp [removeLookup, lookupA, hk]
    · simp only [removeLookup, lookupA, if_neg hk]
      rw [← ih]
      cases removeLookup k rest <;> simp

theorem removeLookup_of_lookupA {κ α : Type} [DecidableEq κ] (k : κ)
    (l : List (κ × α)) (v : α) (h : lookupA k l = some v) :
    removeLookup k l = some (v, removeA k l) := by
  induction l with
  | nil => simp [lookupA] at h
  | cons p rest ih =>
    obtain ⟨k2, v2⟩ := p
    by_cases hk : k = k2
    · simp only [lookupA, if_pos hk, Option.some.injEq] at h
      simp [removeLookup, removeA, hk, h]
    · simp only [lookupA, if_neg hk] at h
      simp [removeLookup, removeA, hk, ih h]

theorem find?_eq_none_of_all {α : Type} (p : α → Bool) (l : List α)
    (h : ∀ x ∈ l, p x = false) : l.find? p = none := by
  induction l with
  | nil => rfl
  | cons x rest ih =>
    rw [List.find?_cons, h x (List.mem_cons_self x rest)]
    exact ih (fun y hy => h y (List.mem_cons_of_mem x hy))

theorem find?_insertA {κ α : Type} [DecidableEq κ] (p : κ × α → Bool)
    (k : κ) (v : α) (l : List (κ × α)) (hv : p (k, v) = true)
    (hothers : ∀ kv ∈ l, kv.1 ≠ k → p kv = false)
    (hnd : (l.map Prod.fst).Nodup) :
    (insertA k v l).find? p = some (k, v) := by
  induction l with
  | nil => simp [insertA, List.find?_cons, hv]
  | cons q rest ih =>
    obtain ⟨k2, v2⟩ := q
    simp only [List.map_cons, List.nodup_cons] at hnd
    obtain ⟨hnotin, hnd2⟩ := hnd
    by_cases hk : k = k2
    · subst hk
      simp only [insertA, if_true, eq_self_iff_true]
      rw [List.find?_cons, hv]
    · simp only [insertA, if_neg hk]
      rw [List.find?_cons,
        hothers (k2, v2) (List.mem_cons_self _ _) (fun he => hk he.symm)]
      exact ih (fun kv hkv hne => hothers kv (List.mem_cons_of_mem _ hkv) hne) hnd2

/-! ## Claim theorems -/

/-- C6: `complete_handshake_as_inviter` returns `Some` if and only if the
incoming preimage equals the key of an outstanding invite; in that case
the invite is removed, an established peer keyed by the remote identifier
is inserted carrying the invite's alias and role with
`issued_preimages = [next_preimage]` (and `their_preimage` set to the
handshake's preimage), and `(next_preimage, SHA256(next_preimage))` is
returned; when it returns `None`, the entire device state is unchanged. -/
theorem C6_inviter_handshake (hash : List Nat → List Nat) (st : DeviceState)
    (preimage peerId52 peerPreimage : List Nat) (peerRelay : Option String)
    (newPreimage : List Nat) (now : Nat) :
    ((DeviceState.complete_handshake_as_inviter hash st preimage peerId52
        peerPreimage peerRelay newPreimage now).1.isSome ↔
      (lookupA preimage st.invites).isSome) ∧
    (∀ inv, lookupA preimage st.invites = some inv →
      DeviceState.complete_handshake_as_inviter hash st preimage peerId52
          peerPreimage peerRelay newPreimage now =
        (some (newPreimage, hash newPreimage),
          { invites := removeA preimage st.invites
            pendingPeers := st.pendingPeers
            peers := insertA peerId52
              { aliasName := inv.aliasName
                role := inv.role
                lastKnownRelay := peerRelay
                lastContacted := now
                issuedPreimages := [newPreimage]
                theirPreimage := some peerPreimage } st.peers })) ∧
    ((DeviceState.complete_handshake_as_inviter hash st preimage peerId52
        peerPreimage peerRelay newPreimage now).1 = none →
      (DeviceState.complete_handshake_as_inviter hash st preimage peerId52
        peerPreimage peerRelay newPreimage now).2 = st) := by
  unfold DeviceState.complete_handshake_as_inviter
  rcases hrl : removeLookup preimage st.invites with _ | ⟨inv0, rest0⟩
  · have hlk : lookupA preimage st.invites = none := by
      by_contra hne
      have h1 : (lookupA preimage st.invites).isSome := by
        cases h2 : lookupA preimage st.invites
        · exact absurd h2 hne
        · rfl
      have h2 := (removeLookup_isSome_iff preimage st.invites).mpr h1
      rw [hrl] at h2
      simp at h2
    refine ⟨by simp [hlk], ?_, fun _ => rfl⟩
    intro inv hinv
    rw [hlk] at hinv
    simp at hinv
  · obtain ⟨hlk, hrest⟩ := removeLookup_some preimage st.invites inv0 rest0 hrl
    refine ⟨by simp [hlk], ?_, ?_⟩
    · intro inv hinv
      rw [hlk, Option.some.injEq] at hinv
      subst hinv
      rw [hrest]
    · intro hnone
      simp at hnone

/-- C7 fails as stated: `lookup_preimage` scans invites before peers, so
when the consumed preimage is also the key of an outstanding invite,
`lookup_preimage(old)` still returns `Invite` (not `None`) after
`consume_and_renew_preimage` succeeds. -/
theorem C7_counterexample :
    (DeviceState.consume_and_renew_preimage (fun l => l)
        ⟨[(List.replicate 32 0, ⟨"guest", List.replicate 32 0, .reader, 0⟩)],
          [],
          [(List.replicate 32 2,
            ⟨"ctrl", .owner, none, 0, [List.replicate 32 0], none⟩)]⟩
        (List.replicate 32 2) (List.replicate 32 0) (List.replicate 32 1)
        5).1.isSome ∧
    ¬ ((DeviceState.consume_and_renew_preimage (fun l => l)
        ⟨[(List.replicate 32 0, ⟨"guest", List.replicate 32 0, .reader, 0⟩)],
          [],
          [(List.replicate 32 2,
            ⟨"ctrl", .owner, none, 0, [List.replicate 32 0], none⟩)]⟩
        (List.replicate 32 2) (List.replicate 32 0) (List.replicate 32 1)
        5).2.lookup_preimage (List.replicate 32 0) = none) := by
  decide

/-- C7 (amended): if `consume_and_renew_preimage(id, old)` succeeds with
successor `new`, then — provided `old` and `new` are not also invite keys,
`old` and `new` are issued to no *other* peer, `new ≠ old`, and the peer
table keys are distinct — in the resulting state `lookup_preimage(old)`
returns `None` and `lookup_preimage(new)` returns `Peer(id, _)`. The added
provisos are exactly what the counterexample forces; they hold for the
fresh random preimages the code draws. -/
theorem C7_consume_renew_lookup (hash : List Nat → List Nat)
    (st : DeviceState) (peerId52 oldPreimage newPreimage : List Nat)
    (now : Nat) (peer : PeerRecord)
    (hpeer : lookupA peerId52 st.peers = some peer)
    (hnd : (st.peers.map Prod.fst).Nodup)
    (hinv_old : lookupA oldPreimage st.invites = none)
    (hinv_new : lookupA newPreimage st.invites = none)
    (hold_other : ∀ kv ∈ st.peers, kv.1 ≠ peerId52 →
      oldPreimage ∉ kv.2.issuedPreimages)
    (hnew_other : ∀ kv ∈ st.peers, kv.1 ≠ peerId52 →
      newPreimage ∉ kv.2.issuedPreimages)
    (hne : newPreimage ≠ oldPreimage) :
    (DeviceState.consume_and_renew_preimage hash st peerId52 oldPreimage
        newPreimage now).1 = some (newPreimage, hash newPreimage) ∧
    (DeviceState.consume_and_renew_preimage hash st peerId52 oldPreimage
        newPreimage now).2.lookup_preimage oldPreimage = none ∧
    ∃ rec, (DeviceState.consume_and_renew_preimage hash st peerId52
        oldPreimage newPreimage now).2.lookup_preimage newPreimage =
      some (.peer peerId52 rec) := by
  unfold DeviceState.consume_and_renew_preimage
  rw [hpeer]
  dsimp only
  refine ⟨rfl, ?_, ?_⟩
  · unfold DeviceState.lookup_preimage
    dsimp only
    rw [hinv_old]
    have hf : List.find?
        (fun p => decide (oldPreimage ∈ p.2.issuedPreimages))
        (insertA peerId52
          { peer with
              issuedPreimages :=
                (peer.issuedPreimages.filter (fun p => p ≠ oldPreimage)) ++
                  [newPreimage]
              lastContacted := now } st.peers) = none := by
      apply find?_eq_none_of_all
      intro kv hkv
      rcases mem_insertA_nodup _ _ _ _ hnd hkv with he | he
      · subst he
        simp only [decide_eq_false_iff_not, List.mem_append, List.mem_filter,
          List.mem_singleton, decide_eq_true_eq]
        rintro (hmem | hmem)
        · exact hmem.2 rfl
        · exact hne hmem.symm
      · simp only [decide_eq_false_iff_not]
        exact hold_other kv he.1 he.2
    rw [hf]
    rfl
  · refine ⟨{ peer with
        issuedPreimages :=
          (peer.issuedPreimages.filter (fun p => p ≠ oldPreimage)) ++
            [newPreimage]
        lastContacted := now }, ?_⟩
    unfold DeviceState.lookup_preimage
    dsimp only
    rw [hinv_new]
    have hf : List.find?
        (fun p => decide (newPreimage ∈ p.2.issuedPreimages))
        (insertA peerId52
          { peer with
              issuedPreimages :=
                (peer.issuedPreimages.filter (fun p => p ≠ oldPreimage)) ++
                  [newPreimage]
              lastContacted := now } st.peers) =
        some (peerId52,
          { peer with
              issuedPreimages :=
                (peer.issuedPreimages.filter (fun p => p ≠ oldPreimage)) ++
                  [newPreimage]
              lastContacted := now }) := by
      apply find?_insertA
      · simp
      · intro kv hkv hne2
        simp only [decide_eq_false_iff_not]
        exact hnew_other kv hkv hne2
      · exact hnd
    rw [hf]
    rfl

/-- C7 witness for the amended theorem. -/
theorem C7_consume_renew_lookup_witness :
    (DeviceState.consume_and_renew_preimage (fun l => l)
        ⟨[], [],
          [(List.replicate 32 2,
            ⟨"ctrl", .owner, none, 0, [List.replicate 32 0], none⟩)]⟩
        (List.replicate 32 2) (List.replicate 32 0) (List.replicate 32 1)
        5).1 = some (List.replicate 32 1, List.replicate 32 1) ∧
    (DeviceState.consume_and_renew_preimage (fun l => l)
        ⟨[], [],
          [(List.replicate 32 2,
            ⟨"ctrl", .owner, none, 0, [List.replicate 32 0], none⟩)]⟩
        (List.replicate 32 2) (List.replicate 32 0) (List.replicate 32 1)
        5).2.lookup_preimage (List.replicate 32 0) = none ∧
    ∃ rec, (DeviceState.consume_and_renew_preimage (fun l => l)
        ⟨[], [],
          [(List.replicate 32 2,
            ⟨"ctrl", .owner, none, 0, [List.replicate 32 0], none⟩)]⟩
        (List.replicate 32 2) (List.replicate 32 0) (List.replicate 32 1)
        5).2.lookup_preimage (List.replicate 32 1) =
      some (.peer (List.replicate 32 2) rec) :=
  C7_consume_renew_lookup (fun l => l)
    ⟨[], [],
      [(List.replicate 32 2,
        ⟨"ctrl", .owner, none, 0, [List.replicate 32 0], none⟩)]⟩
    (List.replicate 32 2) (List.replicate 32 0) (List.replicate 32 1) 5
    ⟨"ctrl", .owner, none, 0, [List.replicate 32 0], none⟩
    (by decide) (by decide) (by decide) (by decide) (by decide) (by decide)
    (by decide)

/-- C6 witness. -/
theorem C6_inviter_handshake_witness :
    (((DeviceState.complete_handshake_as_inviter (fun l => l)
        ⟨[(List.replicate 32 0, ⟨"guest", List.replicate 32 0, .writer, 3⟩)],
          [], []⟩
        (List.replicate 32 0) (List.replicate 32 2) (List.replicate 32 3)
        none (List.replicate 32 1) 9).1.isSome ↔
      (lookupA (List.replicate 32 0)
        ([(List.replicate 32 0,
          (⟨"guest", List.replicate 32 0, .writer, 3⟩ : InviteRecord))])).isSome)) ∧
    DeviceState.complete_handshake_as_inviter (fun l => l)
        ⟨[(List.replicate 32 0, ⟨"guest", List.replicate 32 0, .writer, 3⟩)],
          [], []⟩
        (List.replicate 32 0) (List.replicate 32 2) (List.replicate 32 3)
        none (List.replicate 32 1) 9 =
      (some (List.replicate 32 1, List.replicate 32 1),
        { invites := removeA (List.replicate 32 0)
            [(List.replicate 32 0, ⟨"guest", List.replicate 32 0, .writer, 3⟩)]
          pendingPeers := []
          peers := insertA (List.replicate 32 2)
            { aliasName := "guest"
              role := .writer
              lastKnownRelay := none
              lastContacted := 9
              issuedPreimages := [List.replicate 32 1]
              theirPreimage := some (List.replicate 32 3) } [] }) := by
  have h := C6_inviter_handshake (fun l => l)
    ⟨[(List.replicate 32 0, ⟨"guest", List.replicate 32 0, .writer, 3⟩)],
      [], []⟩
    (List.replicate 32 0) (List.replicate 32 2) (List.replicate 32 3)
    none (List.replicate 32 1) 9
  exact ⟨h.1, h.2.1 ⟨"guest", List.replicate 32 0, .writer, 3⟩ (by decide)⟩

/-- C9: persistence round-trip — for every well-formed device state
(fields that are `[u8; 32]` in the source are 32-byte strings), saving and
then loading yields the original state: all three hex-keyed maps and all
record fields survive. -/
theorem C9_persistence_roundtrip (st : DeviceState) (h : st.WF) :
    DeviceState.load st.save = some st := by
  obtain ⟨hinv, hpend, hpeers⟩ := h
  unfold DeviceState.load DeviceState.save
  rw [mapM_deser_save serInvite deserInvite st.invites
    (fun kv hkv => deserInvite_serInvite kv.2 (hinv kv hkv).2)]
  rw [mapM_deser_save serPending deserPending st.pendingPeers
    (fun kv hkv => deserPending_serPending kv.2 (hpend kv hkv).2.1
      (hpend kv hkv).2.2.1 (hpend kv hkv).2.2.2)]
  rw [mapM_deser_save serPeer deserPeer st.peers
    (fun kv hkv => deserPeer_serPeer kv.2 (hpeers kv hkv).2.1
      (hpeers kv hkv).2.2)]
  simp only [Option.bind_eq_bind, Option.some_bind]
  rw [filterMap_hex_keys st.invites (fun kv hkv => (hinv kv hkv).1)]
  rw [filterMap_hex_keys st.pendingPeers (fun kv hkv => (hpend kv hkv).1)]
  rw [filterMap_hex_keys st.peers (fun kv hkv => (hpeers kv hkv).1)]

/-- C9 witness. -/
theorem C9_persistence_roundtrip_witness :
    DeviceState.WF
      ⟨[(List.replicate 32 0, ⟨"guest", List.replicate 32 4, .reader, 1⟩)],
        [(List.replicate 32 1,
          ⟨"pend", List.replicate 32 1, List.replicate 32 5,
            List.replicate 32 6, some "r", 2⟩)],
        [(List.replicate 32 2,
          ⟨"ctrl", .owner, some "r2", 3, [List.replicate 32 7],
            some (List.replicate 32 8)⟩)]⟩ ∧
    DeviceState.load
      (DeviceState.save
        ⟨[(List.replicate 32 0, ⟨"guest", List.replicate 32 4, .reader, 1⟩)],
          [(List.replicate 32 1,
            ⟨"pend", List.replicate 32 1, List.replicate 32 5,
              List.replicate 32 6, some "r", 2⟩)],
          [(List.replicate 32 2,
            ⟨"ctrl", .owner, some "r2", 3, [List.replicate 32 7],
              some (List.replicate 32 8)⟩)]⟩) =
      some
        ⟨[(List.replicate 32 0, ⟨"guest", List.replicate 32 4, .reader, 1⟩)],
          [(List.replicate 32 1,
            ⟨"pend", List.replicate 32 1, List.replicate 32 5,
              List.replicate 32 6, some "r", 2⟩)],
          [(List.replicate 32 2,
            ⟨"ctrl", .owner, some "r2", 3, [List.replicate 32 7],
              some (List.replicate 32 8)⟩)]⟩ :=
  ⟨by decide, C9_persistence_roundtrip _ (by decide)⟩

/-- C10 (implicit): `DeviceState::load` never fails on entries with
malformed keys: `hex_to_bytes` succeeds exactly on 64-lowercase-hex-char
keys, and an entry of `invites`, `pending_peers` or `peers` whose key is
not of that form is silently dropped by `load` (prepending such an entry
to the serialized document leaves the loaded state unchanged), so a
partially corrupted state file loads as a smaller state. -/
theorem C10_malformed_keys_dropped :
    (∀ s : List Nat, (hex_to_bytes s).isSome ↔ goodHexKey s) ∧
    (∀ (S : SerializableState) (k : List Nat) (v : SerInviteRecord),
      ¬ goodHexKey k → (deserInvite v).isSome →
      DeviceState.load ⟨(k, v) :: S.invites, S.pendingPeers, S.peers⟩ =
        DeviceState.load S) ∧
    (∀ (S : SerializableState) (k : List Nat) (v : SerPendingPeerRecord),
      ¬ goodHexKey k → (deserPending v).isSome →
      DeviceState.load ⟨S.invites, (k, v) :: S.pendingPeers, S.peers⟩ =
        DeviceState.load S) ∧
    (∀ (S : SerializableState) (k : List Nat) (v : SerPeerRecord),
      ¬ goodHexKey k → (deserPeer v).isSome →
      DeviceState.load ⟨S.invites, S.pendingPeers, (k, v) :: S.peers⟩ =
        DeviceState.load S) := by
  have hbad : ∀ k : List Nat, ¬ goodHexKey k → hex_to_bytes k = none := by
    intro k hgood
    cases h2 : hex_to_bytes k
    · rfl
    · exact absurd ((hex_to_bytes_isSome_iff k).mp (by simp [h2])) hgood
  refine ⟨hex_to_bytes_isSome_iff, ?_, ?_, ?_⟩
  · intro S k v hgood hv
    obtain ⟨r, hr⟩ := Option.isSome_iff_exists.mp hv
    unfold DeviceState.load
    simp only [List.mapM_cons, hr, Option.map_some', Option.bind_eq_bind,
      Option.some_bind, Option.pure_def]
    cases hm : S.invites.mapM
        (fun kv => (deserInvite kv.2).map fun r2 => (kv.1, r2)) with
    | none => simp
    | some tl =>
      simp only [Option.some_bind, List.filterMap_cons, hbad k hgood,
        Option.map_none']
  · intro S k v hgood hv
    obtain ⟨r, hr⟩ := Option.isSome_iff_exists.mp hv
    unfold DeviceState.load
    simp only [List.mapM_cons, hr, Option.map_some', Option.bind_eq_bind,
      Option.some_bind, Option.pure_def]
    cases hm : S.pendingPeers.mapM
        (fun kv => (deserPending kv.2).map fun r2 => (kv.1, r2)) with
    | none => simp
    | some tl =>
      simp only [Option.some_bind, List.filterMap_cons, hbad k hgood,
        Option.map_none']
  · intro S k v hgood hv
    obtain ⟨r, hr⟩ := Option.isSome_iff_exists.mp hv
    unfold DeviceState.load
    simp only [List.mapM_cons, hr, Option.map_some', Option.bind_eq_bind,
      Option.some_bind, Option.pure_def]
    cases hm : S.peers.mapM
        (fun kv => (deserPeer kv.2).map fun r2 => (kv.1, r2)) with
    | none => simp
    | some tl =>
      simp only [Option.some_bind, List.filterMap_cons, hbad k hgood,
        Option.map_none']

/-- C10 witness: a key of 63 characters (odd length, so not 64 lowercase
hex) with a decodable value is dropped. -/
theorem C10_malformed_keys_dropped_witness :
    ¬ goodHexKey (List.replicate 63 97) ∧
    (deserInvite ⟨"guest", bytes_to_hex (List.replicate 32 4), .reader,
      1⟩).isSome ∧
    DeviceState.load
        ⟨[(List.replicate 63 97,
          ⟨"guest", bytes_to_hex (List.replicate 32 4), .reader, 1⟩)], [], []⟩ =
      DeviceState.load ⟨[], [], []⟩ :=
  ⟨by decide, by decide,
    C10_malformed_keys_dropped.2.1 ⟨[], [], []⟩ (List.replicate 63 97)
      ⟨"guest", bytes_to_hex (List.replicate 32 4), .reader, 1⟩
      (by decide) (by decide)⟩

/-- C8: codec round-trip — for every relay message (HELLO, I_AM, SEND,
DELIVER, ACK, SEND_RESULT, UPDATE_COMMITS), every device-layer message
(HANDSHAKE_INIT, HANDSHAKE_COMPLETE, MESSAGE, MESSAGE_RESPONSE) and every
invite token, `from_bytes(to_bytes(m))` yields the original value under
the encoding's field-size preconditions (fixed fields 32/64 bytes, counts
below 2^16, lengths below 2^32; token bytes below 256). The 1 MiB frame
limit concerns the outer frame reader and admits every payload bounded by
these sizes. -/
theorem C8_codec_roundtrip :
    (∀ h : Hello, h.nonce < 4294967296 → h.maxPayloadSize < 4294967296 →
      Hello.fromBytes h.toBytes = some h) ∧
    (∀ m : IAm, m.id52.length = 32 → m.signature.length = 64 →
      m.commits.length < 65536 → (∀ c ∈ m.commits, c.length = 32) →
      m.recentResponses.length < 65536 →
      (∀ r ∈ m.recentResponses, r.preimage.length = 32) →
      (∀ r ∈ m.recentResponses, r.response.length < 4294967296) →
      IAm.fromBytes m.toBytes = some m) ∧
    (∀ m : Send, m.toId52.length = 32 → m.preimage.length = 32 →
      m.payload.length < 4294967296 → Send.fromBytes m.toBytes = some m) ∧
    (∀ m : Deliver, m.msgId < 4294967296 → m.payload.length < 4294967296 →
      Deliver.fromBytes m.toBytes = some m) ∧
    (∀ m : Ack, m.msgId < 4294967296 → m.payload.length < 4294967296 →
      Ack.fromBytes m.toBytes = some m) ∧
    (∀ m : SendResult, m.payload.length < 4294967296 →
      SendResult.fromBytes m.toBytes = some m) ∧
    (∀ m : UpdateCommits, m.commits.length < 65536 →
      (∀ c ∈ m.commits, c.length = 32) →
      UpdateCommits.fromBytes m.toBytes = some m) ∧
    (∀ m : HandshakeInit, m.senderId52.length = 32 →
      m.preimageForPeer.length = 32 → m.relayUrl.length < 65536 →
      HandshakeInit.fromBytes m.toBytes = some m) ∧
    (∀ m : HandshakeComplete, m.preimageForPeer.length = 32 →
      m.relayUrl.length < 65536 →
      HandshakeComplete.fromBytes m.toBytes = some m) ∧
    (∀ m : DeviceMessage, m.relayUrl.length < 65536 →
      m.content.length < 4294967296 →
      DeviceMessage.fromBytes m.toBytes = some m) ∧
    (∀ m : DeviceMessageResponse, m.nextPreimage.length = 32 →
      m.relayUrl.length < 65536 → m.content.length < 4294967296 →
      DeviceMessageResponse.fromBytes m.toBytes = some m) ∧
    (∀ id52 preimage : List Nat, id52.length = 32 → preimage.length = 32 →
      (∀ b ∈ id52, b < 256) → (∀ b ∈ preimage, b < 256) →
      parse_invite_token (create_invite_token id52 preimage) =
        some (id52, preimage)) :=
  ⟨hello_roundtrip,
    fun m h1 h2 h3 h4 h5 h6 h7 => iam_roundtrip m h1 h2 h3 h4 h5 h6 h7,
    send_roundtrip, deliver_roundtrip, ack_roundtrip, sendResult_roundtrip,
    updateCommits_roundtrip, handshakeInit_roundtrip,
    handshakeComplete_roundtrip, deviceMessage_roundtrip,
    deviceMessageResponse_roundtrip, invite_token_roundtrip⟩

/-- C8 witness: one concrete message of each type round-trips. -/
theorem C8_codec_roundtrip_witness :
    Hello.fromBytes (Hello.toBytes ⟨1, 77, 65536⟩) = some ⟨1, 77, 65536⟩ ∧
    IAm.fromBytes (IAm.toBytes
        ⟨List.replicate 32 0, List.replicate 64 1, [List.replicate 32 2],
          [⟨List.replicate 32 3, [9, 8]⟩]⟩) =
      some ⟨List.replicate 32 0, List.replicate 64 1, [List.replicate 32 2],
        [⟨List.replicate 32 3, [9, 8]⟩]⟩ ∧
    Send.fromBytes (Send.toBytes
        ⟨List.replicate 32 4, List.replicate 32 5, [1, 2, 3]⟩) =
      some ⟨List.replicate 32 4, List.replicate 32 5, [1, 2, 3]⟩ ∧
    Deliver.fromBytes (Deliver.toBytes ⟨7, [1, 2]⟩) = some ⟨7, [1, 2]⟩ ∧
    Ack.fromBytes (Ack.toBytes ⟨7, [3]⟩) = some ⟨7, [3]⟩ ∧
    SendResult.fromBytes (SendResult.toBytes ⟨0, [4, 4]⟩) = some ⟨0, [4, 4]⟩ ∧
    UpdateCommits.fromBytes (UpdateCommits.toBytes
        ⟨[List.replicate 32 6]⟩) = some ⟨[List.replicate 32 6]⟩ ∧
    HandshakeInit.fromBytes (HandshakeInit.toBytes
        ⟨List.replicate 32 7, List.replicate 32 8, [104, 105]⟩) =
      some ⟨List.replicate 32 7, List.replicate 32 8, [104, 105]⟩ ∧
    HandshakeComplete.fromBytes (HandshakeComplete.toBytes
        ⟨0, List.replicate 32 9, [104]⟩) =
      some ⟨0, List.replicate 32 9, [104]⟩ ∧
    DeviceMessage.fromBytes (DeviceMessage.toBytes
        ⟨0, [104], [5, 6]⟩) = some ⟨0, [104], [5, 6]⟩ ∧
    DeviceMessageResponse.fromBytes (DeviceMessageResponse.toBytes
        ⟨0, List.replicate 32 10, [104], [7]⟩) =
      some ⟨0, List.replicate 32 10, [104], [7]⟩ ∧
    parse_invite_token (create_invite_token (List.replicate 32 11)
        (List.replicate 32 12)) =
      some (List.replicate 32 11, List.replicate 32 12) :=
  ⟨C8_codec_roundtrip.1 ⟨1, 77, 65536⟩ (by decide) (by decide),
    C8_codec_roundtrip.2.1 _ (by decide) (by decide) (by decide) (by decide)
      (by decide) (by decide) (by decide),
    C8_codec_roundtrip.2.2.1 _ (by decide) (by decide) (by decide),
    C8_codec_roundtrip.2.2.2.1 _ (by decide) (by decide),
    C8_codec_roundtrip.2.2.2.2.1 _ (by decide) (by decide),
    C8_codec_roundtrip.2.2.2.2.2.1 _ (by decide),
    C8_codec_roundtrip.2.2.2.2.2.2.1 _ (by decide) (by decide),
    C8_codec_roundtrip.2.2.2.2.2.2.2.1 _ (by decide) (by decide) (by decide),
    C8_codec_roundtrip.2.2.2.2.2.2.2.2.1 _ (by decide) (by decide),
    C8_codec_roundtrip.2.2.2.2.2.2.2.2.2.1 _ (by decide) (by decide),
    C8_codec_roundtrip.2.2.2.2.2.2.2.2.2.2.1 _ (by decide) (by decide)
      (by decide),
    C8_codec_roundtrip.2.2.2.2.2.2.2.2.2.2.2 _ _ (by decide) (by decide)
      (by decide) (by decide)⟩

/-- C1: at-most-once admission. If `route_message` admits a SEND carrying
preimage `p` (consuming `SHA256(p)` from the recipient's commit set), then
after any further sequence of routed SENDs, ACKs and disconnects, another
`route_message` call with the same `p` is never admitted again, delivers
nothing (every device entry, hence every delivery queue, is unchanged),
and — as long as the addressed recipient is still connected — returns
either the cached response (`OK`) or `INVALID_PREIMAGE`. Side conditions:
the device table has distinct keys, and (per the data-model invariant) no
device other than the recipient held `SHA256(p)`. -/
theorem C1_at_most_once_admission (hash : List Nat → List Nat)
    (st0 : RouterState) (now : Nat) (toId52 preimage payload : List Nat)
    (hnd : (st0.devices.map Prod.fst).Nodup)
    (hothers : ∀ kv ∈ st0.devices, kv.1 ≠ toId52 →
      hash preimage ∉ kv.2.commits)
    (m : Nat)
    (hadm : (routeMessage hash st0 now toId52 preimage payload).1 =
      .admitted m)
    (ops : List RouterOp) (now2 : Nat) (toId2 payload2 : List Nat) :
    (∀ m2, (routeMessage hash
        (runOps hash (routeMessage hash st0 now toId52 preimage payload).2 ops)
        now2 toId2 preimage payload2).1 ≠ .admitted m2) ∧
    (routeMessage hash
        (runOps hash (routeMessage hash st0 now toId52 preimage payload).2 ops)
        now2 toId2 preimage payload2).2.devices =
      (runOps hash (routeMessage hash st0 now toId52 preimage payload).2
        ops).devices ∧
    (lookupA toId2 (runOps hash
        (routeMessage hash st0 now toId52 preimage payload).2 ops).devices ≠
        none →
      (∃ resp, (routeMessage hash
          (runOps hash (routeMessage hash st0 now toId52 preimage payload).2
            ops) now2 toId2 preimage payload2).1 =
        .immediate SEND_OK resp) ∨
      (routeMessage hash
          (runOps hash (routeMessage hash st0 now toId52 preimage payload).2
            ops) now2 toId2 preimage payload2).1 =
        .immediate SEND_ERR_INVALID_PREIMAGE []) := by
  have hca1 := routeMessage_admitted_commitAbsent hash st0 now toId52 preimage
    payload hnd hothers m hadm
  have hca2 := runOps_preserves_commitAbsent hash _ ops _ hca1
  obtain ⟨ho, hd, hc⟩ := routeMessage_commit_absent_outcome hash _ now2 toId2
    preimage payload2 hca2
  refine ⟨?_, hd, hc⟩
  intro m2 heq
  rcases ho with ⟨resp, h2⟩ | h2 | h2 <;> rw [heq] at h2 <;> simp at h2

/-- C1 witness. -/
theorem C1_at_most_once_admission_witness :
    ((List.map Prod.fst
      ([(List.replicate 32 5,
        (⟨[List.replicate 32 9], true, []⟩ : RouterDevice))])).Nodup) ∧
    ((routeMessage (fun l => l)
        ⟨[(List.replicate 32 5, ⟨[List.replicate 32 9], true, []⟩)], [], [], 1⟩
        0 (List.replicate 32 5) (List.replicate 32 9) [1]).1 =
      .admitted 1) ∧
    ((∀ m2, (routeMessage (fun l => l)
        (runOps (fun l => l)
          (routeMessage (fun l => l)
            ⟨[(List.replicate 32 5, ⟨[List.replicate 32 9], true, []⟩)],
              [], [], 1⟩
            0 (List.replicate 32 5) (List.replicate 32 9) [1]).2 [])
        0 (List.replicate 32 5) (List.replicate 32 9) [1]).1 ≠
        .admitted m2) ∧
      (routeMessage (fun l => l)
        (runOps (fun l => l)
          (routeMessage (fun l => l)
            ⟨[(List.replicate 32 5, ⟨[List.replicate 32 9], true, []⟩)],
              [], [], 1⟩
            0 (List.replicate 32 5) (List.replicate 32 9) [1]).2 [])
        0 (List.replicate 32 5) (List.replicate 32 9) [1]).2.devices =
        (runOps (fun l => l)
          (routeMessage (fun l => l)
            ⟨[(List.replicate 32 5, ⟨[List.replicate 32 9], true, []⟩)],
              [], [], 1⟩
            0 (List.replicate 32 5) (List.replicate 32 9) [1]).2 []).devices ∧
      (lookupA (List.replicate 32 5) (runOps (fun l => l)
          (routeMessage (fun l => l)
            ⟨[(List.replicate 32 5, ⟨[List.replicate 32 9], true, []⟩)],
              [], [], 1⟩
            0 (List.replicate 32 5) (List.replicate 32 9) [1]).2 []).devices ≠
          none →
        (∃ resp, (routeMessage (fun l => l)
            (runOps (fun l => l)
              (routeMessage (fun l => l)
                ⟨[(List.replicate 32 5, ⟨[List.replicate 32 9], true, []⟩)],
                  [], [], 1⟩
                0 (List.replicate 32 5) (List.replicate 32 9) [1]).2 [])
            0 (List.replicate 32 5) (List.replicate 32 9) [1]).1 =
          .immediate SEND_OK resp) ∨
        (routeMessage (fun l => l)
            (runOps (fun l => l)
              (routeMessage (fun l => l)
                ⟨[(List.replicate 32 5, ⟨[List.replicate 32 9], true, []⟩)],
                  [], [], 1⟩
                0 (List.replicate 32 5) (List.replicate 32 9) [1]).2 [])
            0 (List.replicate 32 5) (List.replicate 32 9) [1]).1 =
          .immediate SEND_ERR_INVALID_PREIMAGE [])) :=
  ⟨by decide, by decide,
    C1_at_most_once_admission (fun l => l)
      ⟨[(List.replicate 32 5, ⟨[List.replicate 32 9], true, []⟩)], [], [], 1⟩
      0 (List.replicate 32 5) (List.replicate 32 9) [1]
      (by decide) (by decide) 1 (by decide) [] 0 (List.replicate 32 5) [1]⟩

/-- Cache-path corollary: an unexpired cached entry short-circuits
`route_message` with `(OK, cached)` and leaves `devices` untouched. -/
theorem routeMessage_cached_lookup (hash : List Nat → List Nat)
    (st : RouterState) (now : Nat) (toId52 preimage payload : List Nat)
    (cc : CachedResponse)
    (hcc : lookupA preimage st.responseCache = some cc)
    (hexp : now < cc.expiresAt) :
    (routeMessage hash st now toId52 preimage payload).1 =
      .immediate SEND_OK cc.response ∧
    (routeMessage hash st now toId52 preimage payload).2.devices =
      st.devices := by
  have h := routeMessage_cache_hit hash st now toId52 preimage payload cc _
    (removeLookup_of_lookupA _ _ _ hcc) hexp
  rw [h]
  exact ⟨rfl, rfl⟩

/-- C4: idempotent retry via the response cache. Part 1: if an unexpired
cache entry exists for the preimage, `route_message` removes that entry
and returns `(OK, cached bytes)` with `devices` (hence every commit set
and delivery queue) and `pending` untouched — nothing is delivered.
Part 2: a SEND admitted for `preimage`, ACKed at `t1`, then retried at
`t2 < t1 + TTL` returns the same response bytes while the recipient's
delivery queue has grown by exactly the one DELIVER of the first attempt.
(The first sender receives the same bytes as the waiter resolution of
`handle_ack`.) -/
theorem C4_idempotent_retry (hash : List Nat → List Nat) :
    (∀ (st : RouterState) (now : Nat) (toId52 preimage payload : List Nat)
        (cc : CachedResponse),
      lookupA preimage st.responseCache = some cc → now < cc.expiresAt →
      routeMessage hash st now toId52 preimage payload =
        (.immediate SEND_OK cc.response,
          { st with responseCache := removeA preimage st.responseCache })) ∧
    (∀ (st0 : RouterState) (t0 t1 t2 : Nat)
        (toId52 preimage payload resp : List Nat) (dev : RouterDevice),
      lookupA preimage st0.responseCache = none →
      lookupA toId52 st0.devices = some dev →
      hash preimage ∈ dev.commits → dev.chanOpen = true →
      t2 < t1 + cacheTtl →
      (routeMessage hash st0 t0 toId52 preimage payload).1 =
        .admitted st0.nextMsgId ∧
      lookupA toId52 (routeMessage hash st0 t0 toId52 preimage
          payload).2.devices =
        some ⟨dev.commits.filter (fun c => c ≠ hash preimage), dev.chanOpen,
          dev.queue ++ [(st0.nextMsgId, payload)]⟩ ∧
      ∃ st2, handleAck (routeMessage hash st0 t0 toId52 preimage payload).2
          t1 st0.nextMsgId resp = (st2, some resp) ∧
        st2.devices =
          (routeMessage hash st0 t0 toId52 preimage payload).2.devices ∧
        (routeMessage hash st2 t2 toId52 preimage payload).1 =
          .immediate SEND_OK resp ∧
        (routeMessage hash st2 t2 toId52 preimage payload).2.devices =
          st2.devices) := by
  constructor
  · intro st now toId52 preimage payload cc hcc hexp
    have hrl := removeLookup_of_lookupA preimage st.responseCache cc hcc
    exact routeMessage_cache_hit hash st now toId52 preimage payload cc _ hrl
      hexp
  · intro st0 t0 t1 t2 toId52 preimage payload resp dev hmiss hdev hcm hch ht2
    have hrm : removeLookup preimage st0.responseCache = none :=
      removeLookup_eq_none preimage st0.responseCache hmiss
    have h1 : routeMessage hash st0 t0 toId52 preimage payload =
        routeAdmit hash st0 t0 toId52 preimage payload :=
      routeMessage_cache_miss hash st0 t0 toId52 preimage payload hrm
    have h2 := routeAdmit_delivered hash st0 t0 toId52 preimage payload dev hdev
      hcm hch
    rw [h1, h2]
    refine ⟨rfl, lookupA_insertA_self toId52 _ st0.devices, ?_⟩
    obtain ⟨rest0, hrl0⟩ :=
      removeLookup_insertA_self st0.nextMsgId preimage st0.pending
    refine ⟨_, handleAck_hit _ t1 st0.nextMsgId resp preimage rest0 hrl0, rfl,
      ?_, ?_⟩
    · exact (routeMessage_cached_lookup hash _ t2 toId52 preimage payload
        ⟨resp, t1 + cacheTtl⟩ (lookupA_insertA_self preimage _ _) ht2).1
    · exact (routeMessage_cached_lookup hash _ t2 toId52 preimage payload
        ⟨resp, t1 + cacheTtl⟩ (lookupA_insertA_self preimage _ _) ht2).2

/-- C4 witness. -/
theorem C4_idempotent_retry_witness :
    (routeMessage (fun l => l)
        ⟨[], [(List.replicate 32 9, ⟨[4, 2], 100⟩)], [], 1⟩ 5
        (List.replicate 32 5) (List.replicate 32 9) [7] =
      (.immediate SEND_OK [4, 2],
        (⟨[], removeA (List.replicate 32 9)
            [(List.replicate 32 9, ⟨[4, 2], 100⟩)], [], 1⟩ : RouterState))) ∧
    ((routeMessage (fun l => l)
        ⟨[(List.replicate 32 5,
          ⟨[List.replicate 32 9], true, []⟩)], [], [], 1⟩ 0
        (List.replicate 32 5) (List.replicate 32 9) [7]).1 =
      .admitted 1 ∧
    lookupA (List.replicate 32 5)
        (routeMessage (fun l => l)
          ⟨[(List.replicate 32 5,
            ⟨[List.replicate 32 9], true, []⟩)], [], [], 1⟩ 0
          (List.replicate 32 5) (List.replicate 32 9) [7]).2.devices =
      some ⟨List.filter (fun c => c ≠ List.replicate 32 9)
          [List.replicate 32 9], true, [(1, [7])]⟩ ∧
    ∃ st2, handleAck
        (routeMessage (fun l => l)
          ⟨[(List.replicate 32 5,
            ⟨[List.replicate 32 9], true, []⟩)], [], [], 1⟩ 0
          (List.replicate 32 5) (List.replicate 32 9) [7]).2
        10 1 [4, 2] = (st2, some [4, 2]) ∧
      st2.devices =
        (routeMessage (fun l => l)
          ⟨[(List.replicate 32 5,
            ⟨[List.replicate 32 9], true, []⟩)], [], [], 1⟩ 0
          (List.replicate 32 5) (List.replicate 32 9) [7]).2.devices ∧
      (routeMessage (fun l => l) st2 50
          (List.replicate 32 5) (List.replicate 32 9) [7]).1 =
        .immediate SEND_OK [4, 2] ∧
      (routeMessage (fun l => l) st2 50
          (List.replicate 32 5) (List.replicate 32 9) [7]).2.devices =
        st2.devices) :=
  ⟨(C4_idempotent_retry (fun l => l)).1
      ⟨[], [(List.replicate 32 9, ⟨[4, 2], 100⟩)], [], 1⟩ 5
      (List.replicate 32 5) (List.replicate 32 9) [7] ⟨[4, 2], 100⟩
      (by decide) (by decide),
    (C4_idempotent_retry (fun l => l)).2
      ⟨[(List.replicate 32 5, ⟨[List.replicate 32 9], true, []⟩)], [], [], 1⟩
      0 10 50 (List.replicate 32 5) (List.replicate 32 9) [7] [4, 2]
      ⟨[List.replicate 32 9], true, []⟩
      (by decide) (by decide) (by decide) (by decide) (by decide)⟩

/-- C2 fails on the code: the relay session's `handle_frame` has no arm
for `MSG_UPDATE_COMMITS` (0x0008) — the frame falls into the catch-all
"Unknown message type" arm, so the listed commits are NOT appended to the
endpoint's commit set and the router state is completely unchanged
(conjunct 1, for every session and frame). Concretely (conjunct 2), after
an authenticated endpoint's session processes an UPDATE_COMMITS frame
listing commit `c`, a SEND whose preimage hashes to `c` is rejected with
`INVALID_PREIMAGE` instead of being admitted. -/
theorem C2_update_commits_ignored :
    (∀ (hash : List Nat → List Nat) (sigOk : IAm → Bool) (st : RouterState)
        (now : Nat) (selfId : Option (List Nat)) (frame : Frame),
      frame.msgType = MSG_UPDATE_COMMITS →
      handleFrame hash sigOk st now selfId frame = some ⟨st, selfId, none⟩) ∧
    (handleFrame (fun l => l) (fun _ => true)
        ⟨[(List.replicate 32 5, ⟨[], true, []⟩)], [], [], 1⟩ 0
        (some (List.replicate 32 5))
        ⟨MSG_UPDATE_COMMITS, UpdateCommits.toBytes ⟨[List.replicate 32 9]⟩⟩ =
      some ⟨⟨[(List.replicate 32 5, ⟨[], true, []⟩)], [], [], 1⟩,
        some (List.replicate 32 5), none⟩ ∧
    (routeMessage (fun l => l)
        ⟨[(List.replicate 32 5, ⟨[], true, []⟩)], [], [], 1⟩ 0
        (List.replicate 32 5) (List.replicate 32 9) [7]).1 =
      .immediate SEND_ERR_INVALID_PREIMAGE []) := by
  constructor
  · intro hash sigOk st now selfId frame h
    unfold handleFrame
    rw [h]
    simp [MSG_I_AM, MSG_SEND, MSG_ACK, MSG_UPDATE_COMMITS]
  · exact ⟨by decide, by decide⟩

/-- C2 witness. -/
theorem C2_update_commits_ignored_witness :
    handleFrame (fun l => l) (fun _ => true)
        ⟨[], [], [], 1⟩ 0 none
        ⟨MSG_UPDATE_COMMITS, UpdateCommits.toBytes ⟨[List.replicate 32 9]⟩⟩ =
      some ⟨⟨[], [], [], 1⟩, none, none⟩ :=
  C2_update_commits_ignored.1 (fun l => l) (fun _ => true) ⟨[], [], [], 1⟩ 0
    none ⟨MSG_UPDATE_COMMITS, UpdateCommits.toBytes ⟨[List.replicate 32 9]⟩⟩
    rfl

/-- C3 fails as stated: after the relay admits a SEND to client X
(installing a pending waiter) and X's session ends, `Router::unregister`
removes only the `devices` entry — the pending waiter is NOT released
with `DISCONNECTED`; it is still in `pending` after the disconnect. -/
theorem C3_counterexample :
    (routeMessage (fun l => l)
        ⟨[(List.replicate 32 5, ⟨[List.replicate 32 9], true, []⟩)],
          [], [], 1⟩
        0 (List.replicate 32 5) (List.replicate 32 9) [7]).1 =
      .admitted 1 ∧
    (unregister
        (routeMessage (fun l => l)
          ⟨[(List.replicate 32 5, ⟨[List.replicate 32 9], true, []⟩)],
            [], [], 1⟩
          0 (List.replicate 32 5) (List.replicate 32 9) [7]).2
        (List.replicate 32 5)).devices = [] ∧
    lookupA 1 (unregister
        (routeMessage (fun l => l)
          ⟨[(List.replicate 32 5, ⟨[List.replicate 32 9], true, []⟩)],
            [], [], 1⟩
          0 (List.replicate 32 5) (List.replicate 32 9) [7]).2
        (List.replicate 32 5)).pending = some (List.replicate 32 9) := by
  decide

/-- C3 (amended): on client disconnect the router releases nothing:
`unregister` leaves `pending` (and the response cache) untouched, a
pending waiter survives any subsequent operations that do not ACK it —
so its one-shot sender is never dropped — and the sender's 30-second
await therefore expires into `TIMEOUT`, not `DISCONNECTED` (consistent
with the spec's failure model "recipient crash mid-request → sender
observes TIMEOUT"). -/
theorem C3_disconnect_waiters_timeout (hash : List Nat → List Nat)
    (st : RouterState) (id52 : List Nat) (m : Nat) (p : List Nat)
    (ops : List RouterOp)
    (hlk : lookupA m st.pending = some p) (hkeys : pendingKeysLt st)
    (hna : ∀ op ∈ ops, notAckFor m op) :
    (unregister st id52).pending = st.pending ∧
    (unregister st id52).responseCache = st.responseCache ∧
    lookupA m (runOps hash (unregister st id52) ops).pending = some p ∧
    awaitOutcome none = (SEND_ERR_TIMEOUT, []) := by
  refine ⟨rfl, rfl, ?_, rfl⟩
  exact runOps_pending_persists hash (unregister st id52) ops m p hlk hkeys hna

/-- C3 witness for the amended theorem. -/
theorem C3_disconnect_waiters_timeout_witness :
    (unregister ⟨[], [], [(1, List.replicate 32 9)], 2⟩
        (List.replicate 32 5)).pending = [(1, List.replicate 32 9)] ∧
    (unregister ⟨[], [], [(1, List.replicate 32 9)], 2⟩
        (List.replicate 32 5)).responseCache = [] ∧
    lookupA 1 (runOps (fun l => l)
        (unregister ⟨[], [], [(1, List.replicate 32 9)], 2⟩
          (List.replicate 32 5))
        [RouterOp.ack 0 2 [1]]).pending = some (List.replicate 32 9) ∧
    awaitOutcome none = (SEND_ERR_TIMEOUT, []) :=
  C3_disconnect_waiters_timeout (fun l => l)
    ⟨[], [], [(1, List.replicate 32 9)], 2⟩ (List.replicate 32 5) 1
    (List.replicate 32 9) [RouterOp.ack 0 2 [1]] (by decide) (by decide)
    (by
      intro op hop
      rw [List.mem_singleton] at hop
      subst hop
      exact (by decide : (2 : Nat) ≠ 1))

/-- The UTF-8 bytes of a minimal JSON response document (open brace,
quote, o, k, quote, colon, t, r, u, e, close brace). -/
def jsonOkBytes : List Nat := [123, 34, 111, 107, 34, 58, 116, 114, 117, 101, 125]

/-- Thirty-two ASCII space bytes. -/
def ws32 : List Nat := List.replicate 32 32

/-- A decoder accepting exactly the minimal document and the document
followed by 32 spaces — realizable by `serde_json::from_slice`, which
accepts trailing whitespace after a complete value. -/
def decWs (b : List Nat) : Bool :=
  decide (b = jsonOkBytes ∨ b = jsonOkBytes ++ ws32)

/-- C5 fails as stated for `Device::send_command`: it decodes the buffer
minus its last 32 bytes FIRST and peels exactly when that succeeds. With
a decoder that (like serde_json) accepts a complete document followed by
32 bytes of trailing whitespace, the device peels the 32 spaces off as a
"successor preimage" even though the FULL buffer decodes — so it does not
"attempt to JSON-decode the full response buffer first and only peel when
that decoding fails". -/
theorem C5_counterexample :
    decWs (jsonOkBytes ++ ws32) = true ∧
    (deviceParseResponse decWs (jsonOkBytes ++ ws32)).2 = some ws32 := by
  decide

/-- C5 (amended): `Node::send` follows the spec's rule — when the payload
is longer than 32 bytes it attempts to decode the full buffer first and
peels the trailing 32 bytes exactly when that fails (never peeling
otherwise); `Device::send_command` instead decodes the buffer minus its
last 32 bytes first and peels exactly when that prefix decode succeeds
(for payloads of at least 32 bytes). -/
theorem C5_extraction_rules :
    (∀ (dec : List Nat → Bool) (payload : List Nat),
      dec payload = true → nodeParseResponse dec payload = (payload, none)) ∧
    (∀ (dec : List Nat → Bool) (payload pre : List Nat),
      (nodeParseResponse dec payload).2 = some pre →
      dec payload = false ∧ 32 < payload.length ∧
      pre = payload.drop (payload.length - 32) ∧
      (nodeParseResponse dec payload).1 =
        payload.take (payload.length - 32)) ∧
    (∀ (dec : List Nat → Bool) (payload : List Nat),
      (deviceParseResponse dec payload).2 ≠ none ↔
        (32 ≤ payload.length ∧
          dec (payload.take (payload.length - 32)) = true)) := by
  refine ⟨?_, ?_, ?_⟩
  · intro dec payload h
    unfold nodeParseResponse
    by_cases hlen : 32 < payload.length
    · rw [if_pos hlen, h, if_pos rfl]
    · rw [if_neg hlen]
  · intro dec payload pre h
    unfold nodeParseResponse at h
    by_cases hlen : 32 < payload.length
    · rw [if_pos hlen] at h
      by_cases hdec : dec payload
      · rw [hdec, if_pos rfl] at h
        simp at h
      · rw [Bool.not_eq_true] at hdec
        rw [hdec] at h
        simp only [Bool.false_eq_true, if_false] at h
        simp only [Option.some.injEq] at h
        refine ⟨hdec, hlen, h.symm, ?_⟩
        unfold nodeParseResponse
        rw [if_pos hlen, hdec]
        simp
    · rw [if_neg hlen] at h
      simp at h
  · intro dec payload
    unfold deviceParseResponse
    by_cases hlen : 32 ≤ payload.length
    · rw [if_pos hlen]
      by_cases hdec : dec (payload.take (payload.length - 32))
      · simp only [hdec, if_pos rfl]
        simp [hlen]
      · rw [Bool.not_eq_true] at hdec
        simp only [hdec, Bool.false_eq_true, if_false]
        simp [hdec]
    · rw [if_neg hlen]
      simp only [ne_eq, not_true_eq_false]
      simp [hlen]

/-- C5 witness for the amended theorem. -/
theorem C5_extraction_rules_witness :
    nodeParseResponse decWs (jsonOkBytes ++ ws32) =
      (jsonOkBytes ++ ws32, none) ∧
    ((deviceParseResponse decWs (jsonOkBytes ++ ws32)).2 ≠ none ↔
      (32 ≤ (jsonOkBytes ++ ws32).length ∧
        decWs ((jsonOkBytes ++ ws32).take
          ((jsonOkBytes ++ ws32).length - 32)) = true)) :=
  ⟨C5_extraction_rules.1 decWs (jsonOkBytes ++ ws32) (by decide),
    C5_extraction_rules.2.2 decWs (jsonOkBytes ++ ws32)⟩

end Bhumi


